import Mathlib

/-!
Verification development for `prompt_template_parser.py`.

The whole transducer `parse_custom_markdown : str -> (str, str)` is embedded
shallowly over `List Char`.  Each Python `re.sub` call is modelled by a
left-to-right scanner (`scanSub`) together with a hand-compiled matcher for the
concrete pattern; every matcher's doc comment records the pattern it compiles
and the backtracking analysis justifying the deterministic compilation.
The stateful line-grouping loop is modelled with an explicit iteration budget
(`groupGoF`), one unit of fuel per iteration of the Python `while` loop, which
lets the termination of the loop be stated and proved as a theorem.
-/

namespace PTP

/-- Text is modelled as a list of characters. -/
abbrev Text := List Char

/-- ASCII whitespace: stands for Python's whitespace class (`str.strip`,
regex `\s`).  The inputs manipulated by the claims are ASCII, where the two
notions agree. -/
def isSpaceChar (c : Char) : Bool :=
  c = ' ' || c = '\t' || c = '\n' || c = '\r' || c = '\x0b' || c = '\x0c'

/-- Regex `\d` (ASCII digits). -/
def isDigitChar (c : Char) : Bool := c.isDigit

/-- Regex `\w` (ASCII letters, digits and underscore). -/
def isWordChar (c : Char) : Bool := c.isAlphanum || c = '_'

/-- Python `str.lstrip()`. -/
def trimLeft (t : Text) : Text := t.dropWhile isSpaceChar

/-- Python `str.rstrip()`. -/
def trimRight (t : Text) : Text := (t.reverse.dropWhile isSpaceChar).reverse

/-- Python `str.strip()`. -/
def trim (t : Text) : Text := trimRight (trimLeft t)

/-- Python `str.strip('"')`: removes all leading and trailing `"` characters. -/
def stripQuotes (t : Text) : Text :=
  ((t.dropWhile (· = '"')).reverse.dropWhile (· = '"')).reverse

/-- Python `sub in s` (contiguous substring test). -/
def occursIn (n : Text) : Text → Bool
  | [] => n.isPrefixOf []
  | c :: cs => n.isPrefixOf (c :: cs) || occursIn n cs

/-- Python `s.lower()` (ASCII case folding; the language tokens the claims
use are ASCII). -/
def toLowerText (t : Text) : Text := t.map Char.toLower

/-!
## The generic `re.sub` scanner

`re.sub(pat, rep, s)` scans `s` left to right; at each position it attempts to
match `pat` there, emits the replacement and resumes after the match, or copies
one character and moves on.  A matcher returns the replacement text together
with the number of characters the match consumed.  Every matcher in this file
consumes at least one character when it succeeds (each pattern starts with a
non-empty literal), so the `max n 1` below — needed only so that the fuel
argument is obviously adequate — never changes the consumed count.

`scanSubF` is the scanner with an explicit fuel (one unit per scan position);
`scanSub` runs it with fuel equal to the input length, which is always enough.
-/

def scanSubF (tryAt : Text → Option (Text × Nat)) : Nat → Text → Text
  | _, [] => []
  | 0, c :: cs => c :: cs
  | fuel + 1, c :: cs =>
    match tryAt (c :: cs) with
    | some (rep, n) => rep ++ scanSubF tryAt fuel ((c :: cs).drop (max n 1))
    | none => c :: scanSubF tryAt fuel cs

def scanSub (tryAt : Text → Option (Text × Nat)) (t : Text) : Text :=
  scanSubF tryAt t.length t

/-!
## Language directive: `re.search(r'#lang:(\w+)#', md)` and
`re.sub(r'#lang:\w+#', '', md)`

After the literal `#lang:`, `\w+` is greedy; since `#` is not a word
character, maximal munch followed by the literal `#` is exact (no backtracking
can succeed where it fails).
-/

/-- Anchored matcher for `#lang:(\w+)#`: returns the captured token and the
total number of characters matched. -/
def tryLangDirective (t : Text) : Option (Text × Nat) :=
  match t with
  | '#' :: 'l' :: 'a' :: 'n' :: 'g' :: ':' :: cs =>
    let tok := cs.takeWhile isWordChar
    if tok = [] then none
    else
      match cs.drop tok.length with
      | '#' :: _ => some (tok, 6 + tok.length + 1)
      | _ => none
  | _ => none

/-- `re.search(r'#lang:(\w+)#', md)`: capture of the leftmost match. -/
def langSearch : Text → Option Text
  | [] => none
  | c :: cs =>
    match tryLangDirective (c :: cs) with
    | some (tok, _) => some tok
    | none => langSearch cs

/-- `re.sub(r'#lang:\w+#', '', md)`. -/
def langSub (t : Text) : Text :=
  scanSub (fun v => (tryLangDirective v).map (fun p => (([] : Text), p.2))) t

/-!
## Pass 1 — inline integer input: `re.sub(r'<<\s*(?P<value>\d+)\s*>>', ...)`

`\s*`, `\d+` and the literal `>` are over disjoint character classes, so the
greedy quantifiers are exact as maximal munch.
-/

def replaceStepper (ds : Text) : Text :=
  "<input type=\"number\" class=\"inline-input\" value=\"".data ++ ds
    ++ "\" min=\"1\" />".data

def tryStepper (t : Text) : Option (Text × Nat) :=
  match t with
  | '<' :: '<' :: cs =>
    let w1 := cs.takeWhile isSpaceChar
    let r1 := cs.drop w1.length
    let ds := r1.takeWhile isDigitChar
    if ds = [] then none
    else
      let r2 := r1.drop ds.length
      let w2 := r2.takeWhile isSpaceChar
      match r2.drop w2.length with
      | '>' :: '>' :: _ =>
        some (replaceStepper ds, 2 + w1.length + ds.length + w2.length + 2)
      | _ => none
  | _ => none

def subStepper : Text → Text := scanSub tryStepper

/-!
## The shared tail `\s*(?P<prefilled>.*?)\s*` + closing literal

Used (with close `]]]`, `]]` and `*)`) by the textarea, inline-textbox and
comment patterns.  Backtracking analysis: the leading `\s*` is greedy and is
tried at its maximal extent first; within that, `.*?` is lazy, so candidate
end positions are tried from the shortest capture up; the trailing `\s*` is
greedy, and since each closing literal starts with a non-whitespace character
it can only succeed after consuming a whole whitespace run.  If no candidate
works with the leading `\s*` maximal, none works at all (a shorter leading run
only forces `.*?` to cover the same whitespace, reaching the same candidate
end positions under a stricter no-newline constraint).  `.` does not match a
newline (these patterns are compiled without `re.DOTALL`), so the lazy search
stops at the first newline; the whitespace consumed by `\s*` may contain
newlines.
-/

/-- Lazy search for `(?P<q>.*?)\s*` + `close` starting at the current
position: at each candidate end, consume a maximal whitespace run and test for
the closing literal; otherwise extend the capture by one non-newline
character. -/
def findLazyCore (close : Text) : Text → Option (Text × Nat)
  | [] => if close.isPrefixOf [] then some ([], close.length) else none
  | c :: cs =>
    let w := (c :: cs).takeWhile isSpaceChar
    if close.isPrefixOf ((c :: cs).drop w.length) then
      some ([], w.length + close.length)
    else if c = '\n' then none
    else
      match findLazyCore close cs with
      | some (q, n) => some (c :: q, n + 1)
      | none => none

/-- The full tail `\s*(?P<q>.*?)\s*` + `close`: greedy leading whitespace run,
then the lazy search. -/
def lazyTail (close : Text) (s : Text) : Option (Text × Nat) :=
  let c0 := s.takeWhile isSpaceChar
  match findLazyCore close (s.drop c0.length) with
  | some (q, n) => some (q, c0.length + n)
  | none => none

/-!
## The placeholder part `\s*(?P<placeholder>[^:]+?)\s*:` of the text-box
patterns

`[^:]+?` can never cross a colon and neither can the surrounding `\s*`, so the
pattern's `:` consumes the first colon after the opening brackets; the match
fails when there is no colon at all, or when the colon comes immediately
(the lazy `+` needs at least one character).  The capture is the segment
before that colon with the greedy leading whitespace run removed and, because
the capture is lazily minimal, without its trailing whitespace — except when
the whole segment is whitespace, in which case backtracking of the leading
`\s*` leaves exactly its last character as the capture.
-/

def placeholderCapture (pre : Text) : Text :=
  if trimLeft pre = [] then pre.drop (pre.length - 1) else trim pre

/-- Matches `\s*(?P<placeholder>[^:]+?)\s*:` at the current position,
returning the raw capture and the consumed count (segment plus colon). -/
def placeholderPart (cs : Text) : Option (Text × Nat) :=
  let pre := cs.takeWhile (fun c => c ≠ ':')
  if pre.length < cs.length then
    if pre = [] then none else some (placeholderCapture pre, pre.length + 1)
  else none

/-!
## Pass 2 — textbox `[[[placeholder:prefilled]]]` (function `replace_textarea`)

Pattern: `\[\[\[\s*(?P<placeholder>[^:]+?)\s*:\s*(?P<prefilled>.*?)\s*\]\]\]`.
-/

def replaceTextarea (placeholderRaw prefilledRaw : Text) : Text :=
  let placeholder := stripQuotes (trim placeholderRaw)
  let prefilled := trim prefilledRaw
  "<textarea id=\"textbox\" placeholder=\"".data ++ placeholder ++ "\">".data
    ++ prefilled ++ "</textarea>".data

def tryTextarea (t : Text) : Option (Text × Nat) :=
  match t with
  | '[' :: '[' :: '[' :: cs =>
    match placeholderPart cs with
    | some (ph, n1) =>
      match lazyTail "]]]".data (cs.drop n1) with
      | some (pre, n2) => some (replaceTextarea ph pre, 3 + n1 + n2)
      | none => none
    | none => none
  | _ => none

def subTextarea : Text → Text := scanSub tryTextarea

/-!
## Pass 2.1 — inline text box `[[placeholder:prefilled]]`
(function `replace_inline_textbox`)

Pattern: `\[\[\s*(?P<placeholder>[^:]+?)\s*:\s*(?P<prefilled>.*?)\s*\]\]`.
-/

def replaceInlineTextbox (placeholderRaw prefilledRaw : Text) : Text :=
  let placeholder := stripQuotes (trim placeholderRaw)
  let prefilled := trim prefilledRaw
  "<input type=\"text\" class=\"inline-text\" placeholder=\"".data
    ++ placeholder ++ "\" value=\"".data ++ prefilled ++ "\" />".data

def tryInlineTextbox (t : Text) : Option (Text × Nat) :=
  match t with
  | '[' :: '[' :: cs =>
    match placeholderPart cs with
    | some (ph, n1) =>
      match lazyTail "]]".data (cs.drop n1) with
      | some (pre, n2) => some (replaceInlineTextbox ph pre, 2 + n1 + n2)
      | none => none
    | none => none
  | _ => none

def subInlineTextbox : Text → Text := scanSub tryInlineTextbox

/-!
## Pass 3 — file load element: `re.sub(r'\(\(\s*\)\)', ...)`
-/

def fileInputFrag : Text :=
  "<input type=\"file\" id=\"fileLoad\" class=\"prompt-item\" />".data

def tryFileLoad (t : Text) : Option (Text × Nat) :=
  match t with
  | '(' :: '(' :: cs =>
    let w := cs.takeWhile isSpaceChar
    match cs.drop w.length with
    | ')' :: ')' :: _ => some (fileInputFrag, 2 + w.length + 2)
    | _ => none
  | _ => none

def subFileLoad : Text → Text := scanSub tryFileLoad

/-!
## Pass 4 — inline comment: `re.sub(r'\(\*\s*(.*?)\s*\*\)', ...)`
(function `replace_comment`)
-/

def replaceComment (txt : Text) : Text :=
  "<span class=\"comment\" data-no-clipboard=\"true\">".data ++ trim txt
    ++ "</span>".data

def tryComment (t : Text) : Option (Text × Nat) :=
  match t with
  | '(' :: '*' :: cs =>
    match lazyTail "*)".data cs with
    | some (txt, n) => some (replaceComment txt, 2 + n)
    | none => none
  | _ => none

def subComment : Text → Text := scanSub tryComment

/-!
## Pass 5 — verbatim blocks: `re.sub(r'\{\{\{(.*?)\}\}\}', ..., flags=re.DOTALL)`
(function `replace_verbatim`)

With `re.DOTALL` the lazy `.*?` matches any character, so the capture is
simply everything up to the first occurrence of the closing literal.
-/

/-- Lazy capture up to the first `}}}` (inclusive in the consumed count). -/
def verbContent : Text → Option (Text × Nat)
  | [] => none
  | c :: cs =>
    if "\x7d\x7d\x7d".data.isPrefixOf (c :: cs) then some ([], 3)
    else
      match verbContent cs with
      | some (q, n) => some (c :: q, n + 1)
      | none => none

def replaceVerbatim (content : Text) : Text :=
  if content.contains '\n' then
    "\n<pre><code>".data ++ content ++ "</code></pre>\n".data
  else
    "<code>".data ++ content ++ "</code>".data

def tryVerbatim (t : Text) : Option (Text × Nat) :=
  match t with
  | '{' :: '{' :: '{' :: cs =>
    match verbContent cs with
    | some (content, n) => some (replaceVerbatim content, 3 + n)
    | none => none
  | _ => none

def subVerbatim : Text → Text := scanSub tryVerbatim

/-- The whole substitution stage of `parse_custom_markdown`: directive
removal, then the five inline passes in source order. -/
def substitutedText (md : Text) : Text :=
  subVerbatim (subComment (subFileLoad (subInlineTextbox (subTextarea
    (subStepper (langSub md))))))

/-!
## Line splitting: Python `str.splitlines()`

Splits at `\n`, `\r\n`, `\r` and the other Unicode line boundaries; a
terminator at the very end produces no trailing empty line, and the empty
string yields no lines.
-/

def isLineBreakChar (c : Char) : Bool :=
  c = '\n' || c = '\r' || c = '\x0b' || c = '\x0c' || c = '\x1c'
    || c = '\x1d' || c = '\x1e' || c = '\x85' || c = '\u2028' || c = '\u2029'

def splitlinesAux : Text → Text → List Text
  | acc, [] => [acc.reverse]
  | acc, '\r' :: '\n' :: rest =>
    acc.reverse :: (if rest = [] then [] else splitlinesAux [] rest)
  | acc, c :: rest =>
    if isLineBreakChar c then
      acc.reverse :: (if rest = [] then [] else splitlinesAux [] rest)
    else splitlinesAux (c :: acc) rest

def splitlines (t : Text) : List Text :=
  match t with
  | [] => []
  | _ => splitlinesAux [] t

/-!
## The line-grouping pass (the `while i < len(lines)` loop)
-/

/-- The initial value of `title` (and the default document title). -/
def dTitle : Text := "Document".data

/-- `lines[i].lstrip().startswith("<pre><code>")`. -/
def isVerbOpen (l : Text) : Bool := "<pre><code>".data.isPrefixOf (trimLeft l)

/-- `lines[i].rstrip().endswith("</code></pre>")`. -/
def endsVerbClose (l : Text) : Bool :=
  "</code></pre>".data.isSuffixOf (trimRight l)

/-- The inner verbatim loop: consume lines (starting with the current one)
until one ends with the closing marker, inclusive; if none does, consume to
the end of the input.  Returns the consumed lines and the remainder. -/
def consumeVerb : List Text → List Text × List Text
  | [] => ([], [])
  | l :: ls =>
    if endsVerbClose l then ([l], ls)
    else
      let r := consumeVerb ls
      (l :: r.1, r.2)

/-- Python `"\n".join`. -/
def joinNL : List Text → Text
  | [] => []
  | [t] => t
  | t :: t2 :: ts => t ++ '\n' :: joinNL (t2 :: ts)

/-- `line.startswith("#")`. -/
def startsWithHash : Text → Bool
  | '#' :: _ => true
  | _ => false

/-- Deterministic compilation of `re.match(r'^(#{1,6})\s*(.+)$', line)`.
Backtracking analysis (`line` is the stripped line and contains no newline):
`#{1,6}` is greedy and takes up to six `#`; if at least one character
remains, `\s*` takes the maximal whitespace run after the hashes, and `.+`
takes the (non-empty) remainder — when the remainder after the whitespace run
is empty, `\s*` backtracks and `.+` is exactly the last character of the run.
When the line consists of `m ≤ 6` hash characters only, `#{1,6}` backtracks
to `m - 1` hashes and `.+` captures the final `#` (impossible for `m = 1`,
where the match fails).  Returns (heading level, raw second group). -/
def headMatch (line : Text) : Option (Nat × Text) :=
  let m := (line.takeWhile (fun c => c = '#')).length
  if m = 0 then none
  else if min m 6 < line.length then
    let rest := line.drop (min m 6)
    let txt := trimLeft rest
    if txt = [] then some (min m 6, rest.drop (rest.length - 1))
    else some (min m 6, txt)
  else if 2 ≤ m then some (m - 1, ['#'])
  else none

/-- The f-string `f'<h{header_level}>{header_text}</h{header_level}>'`. -/
def headingFrag (n : Nat) (txt : Text) : Text :=
  "<h".data ++ (toString n).data ++ ">".data ++ txt
    ++ "</h".data ++ (toString n).data ++ ">".data

/-- `re.match(r'^\[(?:x|X| )\]', line)` on the stripped line. -/
def cbGate : Text → Bool
  | '[' :: c :: ']' :: _ => c = 'x' || c = 'X' || c = ' '
  | _ => false

/-- Matcher for a non-empty run of characters satisfying `p`, deleted by the
enclosing `re.sub` (used for `re.sub(r'\s+', '', ...)` and
`re.sub(r'\W+', '', ...)`). -/
def tryRunOf (p : Char → Bool) (t : Text) : Option (Text × Nat) :=
  let w := t.takeWhile p
  if w = [] then none else some ([], w.length)

/-- `re.sub(r'\s+', '', label_text)`. -/
def stripWs : Text → Text := scanSub (tryRunOf isSpaceChar)

/-- `re.sub(r'\W+', '', checkbox_id)`. -/
def stripNonWord : Text → Text := scanSub (tryRunOf (fun c => !isWordChar c))

/-- The checkbox label f-string. -/
def cbFragment (cid : Text) (checked : Bool) (label : Text) : Text :=
  "<label class=\"prompt-item\"><input type=\"checkbox\" id=\"".data ++ cid
    ++ "\"".data ++ (if checked then " checked".data else [])
    ++ " /> ".data ++ label ++ "</label>".data

/-- One checkbox line: `re.match(r'^\[(?P<status>[xX ]?)\]\s*(?P<label>.+)$',
cb_line)` followed by the identifier derivation and fragment construction.
`cb_line` is the stripped line, so when it passes `cbGate` the inner match
succeeds exactly when something follows the bracket pair (a stripped line has
no trailing whitespace, so a non-empty remainder has a non-whitespace
character), with `status` the gate character and `label` the remainder with
leading whitespace removed. -/
def mkCheckbox (line : Text) : Option Text :=
  match line with
  | '[' :: c :: ']' :: rest =>
    if c = 'x' || c = 'X' || c = ' ' then
      let lab := trimLeft rest
      if lab = [] then none
      else
        let labelText := trim lab
        let cid := stripNonWord (stripWs labelText)
        some (cbFragment cid (trim (toLowerText [c]) == "x".data) labelText)
    else none
  | _ => none

/-- The checkbox run loop: `while i < len(lines) and
re.match(r'^\[(?:x|X| )\]', lines[i].strip())`, collecting the fragments of
the lines whose inner match succeeds.  Returns the collected fragments and
the remaining lines. -/
def consumeCbs : List Text → List Text × List Text
  | [] => ([], [])
  | l :: ls =>
    if cbGate (trim l) then
      let r := consumeCbs ls
      ((mkCheckbox (trim l)).toList ++ r.1, r.2)
    else ([], l :: ls)

/-- Matcher for `class="([^"]+)"`, replaced by `class="\1 prompt-item"`.
`[^"]+` is greedy over a class disjoint from the closing quote, so maximal
munch is exact. -/
def tryClassAttr (t : Text) : Option (Text × Nat) :=
  match t with
  | 'c' :: 'l' :: 'a' :: 's' :: 's' :: '=' :: '"' :: cs =>
    let v := cs.takeWhile (fun c => c ≠ '"')
    if v = [] then none
    else
      match cs.drop v.length with
      | '"' :: _ =>
        some ("class=\"".data ++ v ++ " prompt-item\"".data, 7 + v.length + 1)
      | _ => none
  | _ => none

def subClassAttr : Text → Text := scanSub tryClassAttr

/-- Python `line.replace("<textarea", '<textarea class="prompt-item"', 1)`:
replace the first occurrence only. -/
def replaceFirstTextarea : Text → Text
  | [] => []
  | c :: cs =>
    if "<textarea".data.isPrefixOf (c :: cs) then
      "<textarea class=\"prompt-item\"".data ++ (c :: cs).drop 9
    else c :: replaceFirstTextarea cs

/-- The `prompt-item` class injection for a line starting with `<textarea`. -/
def textareaLineFix (line : Text) : Text :=
  if occursIn "class=\"".data line then subClassAttr line
  else replaceFirstTextarea line

def cbOpenFrag : Text := "<div class=\"checkbox-container\">".data

def cbCloseFrag : Text := "</div>".data

/-- `f'<p class="prompt-item">{line}</p>'`. -/
def paraFrag (line : Text) : Text :=
  "<p class=\"prompt-item\">".data ++ line ++ "</p>".data

/-- The grouping loop with an explicit iteration budget: one unit of fuel per
iteration of the outer `while i < len(lines)` loop.  Every branch consumes at
least one line, so fuel equal to the number of lines always suffices (proved
below); `none` means the budget was exhausted with lines still unprocessed.
Returns the body fragment list and the final `title`. -/
def groupGoF : Nat → List Text → Text → Option (List Text × Text)
  | _, [], title => some ([], title)
  | 0, _ :: _, _ => none
  | fuel + 1, l :: rest, title =>
    if isVerbOpen l then
      match groupGoF fuel (consumeVerb (l :: rest)).2 title with
      | some r => some (joinNL (consumeVerb (l :: rest)).1 :: r.1, r.2)
      | none => none
    else if startsWithHash (trim l) then
      match headMatch (trim l) with
      | some p =>
        match groupGoF fuel rest (if title = dTitle then trim p.2 else title) with
        | some r => some (headingFrag p.1 (trim p.2) :: r.1, r.2)
        | none => none
      | none => groupGoF fuel rest title
    else if cbGate (trim l) then
      match groupGoF fuel (consumeCbs rest).2 title with
      | some r =>
        some ((if (mkCheckbox (trim l)).toList ++ (consumeCbs rest).1 = [] then []
               else cbOpenFrag :: ((mkCheckbox (trim l)).toList ++ (consumeCbs rest).1)
                 ++ [cbCloseFrag]) ++ r.1, r.2)
      | none => none
    else if "<textarea".data.isPrefixOf (trim l) then
      match groupGoF fuel rest title with
      | some r => some (textareaLineFix (trim l) :: r.1, r.2)
      | none => none
    else if trim l = [] then groupGoF fuel rest title
    else
      match groupGoF fuel rest title with
      | some r => some (paraFrag (trim l) :: r.1, r.2)
      | none => none

/-- The grouping pass: run the loop with its (provably sufficient) budget. -/
def groupGo (ls : List Text) (title : Text) : List Text × Text :=
  (groupGoF ls.length ls title).getD ([], title)

/-!
## Style block assembly
-/

def bodyRule : Text :=
  "body \x7b\n      max-width: 800px;\n      margin: 0 auto;\n      font-family: sans-serif;\n    \x7d".data

def h1Rule : Text :=
  "h1 \x7b\n      margin-top: 1em;\n      font-size: 2em;\n    \x7d".data

def textareaRule : Text :=
  "textarea \x7b\n      width: 100%;\n      height: 100px;\n      margin-bottom: 1em;\n    \x7d".data

def inlineTextRule : Text :=
  "input.inline-text \x7b\n      padding: 2px;\n      font-size: 1em;\n      text-align: center;\n    \x7d".data

def buttonRule : Text :=
  "button \x7b\n      padding: 0.5em 1em;\n      cursor: pointer;\n    \x7d".data

def resultBoxRule : Text :=
  ".result-box \x7b\n      white-space: pre-wrap;\n      border: 1px solid #ddd;\n      padding: 1em;\n      margin-top: 1em;\n    \x7d".data

def checkboxContainerRule : Text :=
  ".checkbox-container \x7b\n      margin-bottom: 1em;\n    \x7d".data

def labelRule : Text :=
  "label \x7b\n      display: block;\n      margin-bottom: 0.5em;\n    \x7d".data

def commentRule : Text :=
  ".comment \x7b\n      color: grey;\n    \x7d".data

def inlineInputRule : Text :=
  ".inline-input \x7b\n      width: 3em;\n      padding: 2px;\n      font-size: 1em;\n      text-align: center;\n    \x7d".data

/-- `html_body = "<div id=\"promptContent\">\n" + "\n".join(body_parts) +
"\n</div>"`. -/
def mkHtmlBody (parts : List Text) : Text :=
  "<div id=\"promptContent\">\n".data ++ joinNL parts ++ "\n</div>".data

/-- The conditionally assembled `style_rules` list, in source order. -/
def styleRules (hb : Text) : List Text :=
  [bodyRule]
    ++ (if occursIn "<h1>".data hb then [h1Rule] else [])
    ++ (if occursIn "<textarea".data hb then [textareaRule] else [])
    ++ (if occursIn "class=\"inline-text\"".data hb then [inlineTextRule] else [])
    ++ (if occursIn "<button".data hb then [buttonRule] else [])
    ++ [resultBoxRule]
    ++ (if occursIn "class=\"checkbox-container\"".data hb then [checkboxContainerRule] else [])
    ++ (if occursIn "<label".data hb then [labelRule] else [])
    ++ (if occursIn "class=\"comment\"".data hb then [commentRule] else [])
    ++ (if occursIn "class=\"inline-input\"".data hb then [inlineInputRule] else [])

def styleBlock (hb : Text) : Text :=
  "<style>\n".data ++ joinNL (styleRules hb) ++ "\n</style>".data

/-!
## Script block assembly (`script_parts`)
-/

def scriptText (hasFile : Bool) : String :=
  "<script>\n(function()\x7b\n"
    ++ "  document.getElementById(\"generateButton\").addEventListener(\"click\", async () => \x7b\n"
    ++ "    const promptItems = [];\n"
    ++ (if hasFile then
          "    const elements = document.querySelectorAll(\"#promptContent .prompt-item, pre code, input[type=\x27file\x27]\");\n"
        else
          "    const elements = document.querySelectorAll(\"#promptContent .prompt-item, pre code\");\n")
    ++ "    for (const el of elements) \x7b\n"
    ++ "      const tag = el.tagName.toLowerCase();\n"
    ++ "      if (tag === \"textarea\") \x7b\n"
    ++ "        promptItems.push(el.value);\n"
    ++ "      \x7d else if (tag === \"p\") \x7b\n"
    ++ "        promptItems.push(getElementText(el));\n"
    ++ "      \x7d else if (tag === \"label\") \x7b\n"
    ++ "        const checkbox = el.querySelector(\"input[type=\x27checkbox\x27]\");\n"
    ++ "        if (checkbox && checkbox.checked) \x7b\n"
    ++ "          promptItems.push(getElementText(el));\n"
    ++ "        \x7d\n"
    ++ "      \x7d else if (tag === \"code\") \x7b\n"
    ++ "        promptItems.push(el.textContent);\n"
    ++ "      \x7d else if (tag === \"input\" && el.type === \"text\") \x7b\n"
    ++ "        promptItems.push(el.value);\n"
    ++ "      \x7d\n"
    ++ (if hasFile then
          "      else if (tag === \"input\" && el.type === \"file\") \x7b\n"
            ++ "        if (el.files && el.files.length > 0) \x7b\n"
            ++ "          try \x7b\n"
            ++ "            const fileContent = await readFileAsText(el.files[0]);\n"
            ++ "            promptItems.push(fileContent);\n"
            ++ "          \x7d catch (err) \x7b\n"
            ++ "            console.error(\"Error reading file:\", err);\n"
            ++ "          \x7d\n"
            ++ "        \x7d\n"
            ++ "      \x7d\n"
        else "")
    ++ "    \x7d\n"
    ++ "    const prompt = promptItems.join(\"\\n\");\n"
    ++ "    navigator.clipboard.writeText(prompt)\n"
    ++ "      .then(() => \x7b alert(\"Copied to clipboard!\"); \x7d)\n"
    ++ "      .catch((err) => \x7b alert(\"Failed to copy: \" + err); \x7d);\n"
    ++ "    const resultPromptDiv = document.getElementById(\"resultPrompt\");\n"
    ++ "    resultPromptDiv.hidden = false;\n"
    ++ "    resultPromptDiv.textContent = prompt;\n"
    ++ "  \x7d);\n"
    ++ (if hasFile then
          "\n  function readFileAsText(file) \x7b\n"
            ++ "    return new Promise((resolve, reject) => \x7b\n"
            ++ "      const reader = new FileReader();\n"
            ++ "      reader.onload = () => resolve(reader.result);\n"
            ++ "      reader.onerror = reject;\n"
            ++ "      reader.readAsText(file);\n"
            ++ "    \x7d);\n"
            ++ "  \x7d\n"
        else "")
    ++ "\n  function getElementText(el) \x7b\n"
    ++ "    let text = \"\";\n"
    ++ "    el.childNodes.forEach(node => \x7b\n"
    ++ "      if (node.nodeType === Node.ELEMENT_NODE && node.tagName.toLowerCase() === \"input\") \x7b\n"
    ++ "        if (node.type === \"text\" || node.type === \"number\") \x7b\n"
    ++ "          text += node.value;\n"
    ++ "        \x7d\n"
    ++ "      \x7d else \x7b\n"
    ++ "        text += node.textContent;\n"
    ++ "      \x7d\n"
    ++ "    \x7d);\n"
    ++ "    return text.replace(/\\s+/g, \" \").trim();\n"
    ++ "  \x7d\n"
    ++ "\x7d)();\n</script>"

def scriptBlock (hasFile : Bool) : Text := (scriptText hasFile).data

/-!
## Localized button labels and final document assembly
-/

def enLabel : Text := "Generate Prompt &amp; Copy to Clipboard".data

def jaLabel : Text := "プロンプトを生成してクリップボードにコピー".data

def frLabel : Text := "Générer le prompt et copier dans le presse-papiers".data

def itLabel : Text := "Genera prompt e copia negli appunti".data

def esLabel : Text := "Generar prompt y copiar al portapapeles".data

/-- `BUTTON_LABELS.get(lang_key, BUTTON_LABELS['en'])`. -/
def buttonLabelFor (langKey : Text) : Text :=
  if langKey = "en".data then enLabel
  else if langKey = "ja".data then jaLabel
  else if langKey = "fr".data then frLabel
  else if langKey = "it".data then itLabel
  else if langKey = "es".data then esLabel
  else enLabel

/-- `lang_key = lang.lower()`, then the `jp` → `ja` aliasing. -/
def normalizeLangKey (lang : Text) : Text :=
  let k := toLowerText lang
  if k = "jp".data then "ja".data else k

/-- The final f-string building `html_output`. -/
def htmlOutput (lang title styleB htmlB buttonLabel scriptB : Text) : Text :=
  "<!DOCTYPE html>\n<html lang=\"".data ++ lang
    ++ "\">\n<head>\n  <meta charset=\"UTF-8\" />\n  <title>".data ++ title
    ++ "</title>\n  ".data ++ styleB
    ++ "\n</head>\n<body>\n".data ++ htmlB
    ++ "\n\n<button id=\"generateButton\">".data ++ buttonLabel
    ++ "</button>\n\n<div class=\"result-box\" id=\"resultPrompt\" hidden></div>\n\n".data
    ++ scriptB ++ "\n\n</body>\n</html>\n".data

/-!
## The whole transducer, staged
-/

def linesOf (md : Text) : List Text := splitlines (substitutedText md)

def groupOf (md : Text) : List Text × Text := groupGo (linesOf md) dTitle

def htmlBodyOf (md : Text) : Text := mkHtmlBody (groupOf md).1

def langOf (md : Text) : Text := (langSearch md).getD "en".data

/-- `has_file_input = '<input type="file"' in html_body`. -/
def hasFileInput (hb : Text) : Bool := occursIn "<input type=\"file\"".data hb

/-- `has_inline_input` is computed in the source but never used afterwards;
it is embedded for completeness. -/
def hasInlineInput (hb : Text) : Bool := occursIn "class=\"inline-text\"".data hb

/-- `parse_custom_markdown(md)`: the complete HTML output and the language
code. -/
def parseCustomMarkdown (md : Text) : Text × Text :=
  (htmlOutput (langOf md) (groupOf md).2 (styleBlock (htmlBodyOf md))
      (htmlBodyOf md) (buttonLabelFor (normalizeLangKey (langOf md)))
      (scriptBlock (hasFileInput (htmlBodyOf md))),
    langOf md)

/-!
## Specification-side views of the grouping pass (used to state claims)
-/

/-- The heading text a single line contributes in the grouping pass: the
(re-trimmed) second group of the header regex when the stripped line starts
with `#` and the regex matches. -/
def lineHeading (l : Text) : Option Text :=
  if startsWithHash (trim l) then (headMatch (trim l)).map (fun p => trim p.2)
  else none

/-- The heading texts of a line sequence, in order. -/
def headingTexts (ls : List Text) : List Text := ls.filterMap lineHeading

/-!
## Unfolding lemmas for the `re.sub` scanner
-/

theorem scanSubF_nil (f : Text → Option (Text × Nat)) (fuel : Nat) :
    scanSubF f fuel [] = [] := by
  cases fuel <;> rfl

theorem scanSubF_succ_of_le (f : Text → Option (Text × Nat)) :
    ∀ (fuel : Nat) (t : Text), t.length ≤ fuel →
      scanSubF f (fuel + 1) t = scanSubF f fuel t := by
  intro fuel
  induction fuel with
  | zero =>
    intro t ht
    have : t = [] := List.eq_nil_of_length_eq_zero (Nat.le_zero.mp ht)
    subst this
    simp [scanSubF_nil]
  | succ g ih =>
    intro t ht
    cases t with
    | nil => simp [scanSubF_nil]
    | cons c cs =>
      have hcs : cs.length ≤ g := by
        have := ht
        simp only [List.length_cons] at this
        omega
      cases hf : f (c :: cs) with
      | none =>
        simp only [scanSubF, hf]
        rw [ih cs hcs]
      | some p =>
        obtain ⟨rep, n⟩ := p
        simp only [scanSubF, hf]
        have hd : ((c :: cs).drop (max n 1)).length ≤ g := by
          simp only [List.length_drop, List.length_cons]
          omega
        rw [ih _ hd]

theorem scanSubF_of_le (f : Text → Option (Text × Nat)) :
    ∀ (fuel : Nat) (t : Text), t.length ≤ fuel →
      scanSubF f fuel t = scanSub f t := by
  intro fuel
  induction fuel with
  | zero =>
    intro t ht
    have : t = [] := List.eq_nil_of_length_eq_zero (Nat.le_zero.mp ht)
    subst this
    simp [scanSub, scanSubF_nil]
  | succ g ih =>
    intro t ht
    rcases Nat.lt_or_ge t.length (g + 1) with hlt | hge
    · have hle : t.length ≤ g := Nat.lt_succ_iff.mp hlt
      rw [scanSubF_succ_of_le f g t hle]
      exact ih t hle
    · have : t.length = g + 1 := Nat.le_antisymm ht hge
      rw [scanSub, this]

theorem scanSub_cons_none (f : Text → Option (Text × Nat)) (c : Char)
    (cs : Text) (h : f (c :: cs) = none) :
    scanSub f (c :: cs) = c :: scanSub f cs := by
  show scanSubF f (c :: cs).length (c :: cs) = _
  simp only [List.length_cons, scanSubF, h]
  rw [scanSubF_of_le f cs.length cs (Nat.le_refl _)]

theorem scanSub_cons_some (f : Text → Option (Text × Nat)) (c : Char)
    (cs rep : Text) (n : Nat) (h : f (c :: cs) = some (rep, n)) :
    scanSub f (c :: cs) = rep ++ scanSub f ((c :: cs).drop (max n 1)) := by
  show scanSubF f (c :: cs).length (c :: cs) = _
  simp only [List.length_cons, scanSubF, h]
  have hd : ((c :: cs).drop (max n 1)).length ≤ cs.length := by
    simp only [List.length_drop, List.length_cons]
    omega
  rw [scanSubF_of_le f cs.length _ hd]

theorem scanSub_nil (f : Text → Option (Text × Nat)) : scanSub f [] = [] := by
  simp [scanSub, scanSubF_nil]

/-!
## The substring test `occursIn`
-/

theorem occursIn_iff (n h : Text) :
    occursIn n h = true ↔ ∃ a b, h = a ++ n ++ b := by
  induction h with
  | nil =>
    simp only [occursIn, List.isPrefixOf_iff_prefix]
    constructor
    · intro hp
      have : n = [] := List.prefix_nil.mp hp
      exact ⟨[], [], by simp [this]⟩
    · rintro ⟨a, b, hab⟩
      have := hab.symm
      rw [List.append_assoc] at this
      rcases List.append_eq_nil.mp this with ⟨ha, hnb⟩
      rcases List.append_eq_nil.mp hnb with ⟨hn, hb⟩
      simp [hn]
  | cons c cs ih =>
    simp only [occursIn, Bool.or_eq_true, List.isPrefixOf_iff_prefix]
    constructor
    · rintro (hp | ho)
      · obtain ⟨b, hb⟩ := hp
        exact ⟨[], b, by simp [hb.symm]⟩
      · obtain ⟨a, b, hab⟩ := ih.mp ho
        exact ⟨c :: a, b, by simp [hab]⟩
    · rintro ⟨a, b, hab⟩
      cases a with
      | nil =>
        left
        exact ⟨b, by simpa using hab.symm⟩
      | cons x a' =>
        right
        apply ih.mpr
        refine ⟨a', b, ?_⟩
        simpa using congrArg List.tail hab

theorem occursIn_of_middle (a n b : Text) : occursIn n (a ++ n ++ b) = true :=
  (occursIn_iff n _).mpr ⟨a, b, rfl⟩

theorem occursIn_append_right (a n b : Text) (h : occursIn n b = true) :
    occursIn n (a ++ b) = true := by
  obtain ⟨x, y, hxy⟩ := (occursIn_iff n b).mp h
  exact (occursIn_iff n _).mpr ⟨a ++ x, y, by simp [hxy]⟩

theorem occursIn_trans (n s h : Text) (h1 : occursIn n s = true)
    (h2 : occursIn s h = true) : occursIn n h = true := by
  obtain ⟨x, y, hxy⟩ := (occursIn_iff n s).mp h1
  obtain ⟨u, v, huv⟩ := (occursIn_iff s h).mp h2
  refine (occursIn_iff n h).mpr ⟨u ++ x, y ++ v, ?_⟩
  simp [huv, hxy]

/-!
## The grouping loop consumes at least one line per iteration
-/

theorem consumeVerb_rest_length : ∀ (l : Text) (ls : List Text),
    (consumeVerb (l :: ls)).2.length ≤ ls.length := by
  intro l ls
  induction ls generalizing l with
  | nil => cases h : endsVerbClose l <;> simp [consumeVerb, h]
  | cons a ls' ih =>
    cases h : endsVerbClose l with
    | true => simp [consumeVerb, h]
    | false =>
      simp only [consumeVerb, h, Bool.false_eq_true, if_false]
      exact le_trans (ih a) (Nat.le_succ _)

theorem consumeCbs_rest_length : ∀ (ls : List Text),
    (consumeCbs ls).2.length ≤ ls.length := by
  intro ls
  induction ls with
  | nil => simp [consumeCbs]
  | cons l ls ih =>
    cases h : cbGate (trim l) with
    | true =>
      simp only [consumeCbs, h, if_true]
      exact le_trans ih (Nat.le_succ _)
    | false => simp [consumeCbs, h]

/-!
## Fuel adequacy and stability for the grouping loop
-/

theorem groupGoF_nil (fuel : Nat) (t : Text) :
    groupGoF fuel [] t = some ([], t) := by
  cases fuel <;> rfl

theorem groupGoF_succ_of_le :
    ∀ (fuel : Nat) (ls : List Text) (t : Text), ls.length ≤ fuel →
      groupGoF (fuel + 1) ls t = groupGoF fuel ls t := by
  intro fuel
  induction fuel with
  | zero =>
    intro ls t hls
    have : ls = [] := List.eq_nil_of_length_eq_zero (Nat.le_zero.mp hls)
    subst this
    simp [groupGoF_nil]
  | succ g ih =>
    intro ls t hls
    cases ls with
    | nil => simp [groupGoF_nil]
    | cons l rest =>
      have hrest : rest.length ≤ g := by
        simp only [List.length_cons] at hls
        omega
      cases hv : isVerbOpen l with
      | true =>
        have e := ih (consumeVerb (l :: rest)).2 t
          (le_trans (consumeVerb_rest_length l rest) hrest)
        simp [groupGoF, hv, e]
      | false =>
        cases hh : startsWithHash (trim l) with
        | true =>
          cases hm : headMatch (trim l) with
          | some p =>
            have e := ih rest (if t = dTitle then trim p.2 else t) hrest
            simp [groupGoF, hv, hh, hm, e]
          | none =>
            have e := ih rest t hrest
            simp [groupGoF, hv, hh, hm, e]
        | false =>
          cases hg : cbGate (trim l) with
          | true =>
            have e := ih (consumeCbs rest).2 t
              (le_trans (consumeCbs_rest_length rest) hrest)
            simp [groupGoF, hv, hh, hg, e]
          | false =>
            cases hta : "<textarea".data.isPrefixOf (trim l) with
            | true =>
              have e := ih rest t hrest
              simp [groupGoF, hv, hh, hg, hta, e]
            | false =>
              have e := ih rest t hrest
              by_cases hb : trim l = []
              · have h1 : startsWithHash ([] : Text) = false := rfl
                have h2 : cbGate ([] : Text) = false := rfl
                have h3 : "<textarea".data.isPrefixOf ([] : Text) = false := by
                  decide
                simp [groupGoF, hv, hb, h1, h2, h3, e]
              · simp [groupGoF, hv, hh, hg, hta, hb, e]

theorem groupGoF_of_le :
    ∀ (fuel : Nat) (ls : List Text) (t : Text), ls.length ≤ fuel →
      groupGoF fuel ls t = groupGoF ls.length ls t := by
  intro fuel
  induction fuel with
  | zero =>
    intro ls t hls
    have : ls = [] := List.eq_nil_of_length_eq_zero (Nat.le_zero.mp hls)
    subst this
    rfl
  | succ g ih =>
    intro ls t hls
    rcases Nat.lt_or_ge ls.length (g + 1) with hlt | hge
    · have hle : ls.length ≤ g := Nat.lt_succ_iff.mp hlt
      rw [groupGoF_succ_of_le g ls t hle]
      exact ih ls t hle
    · have : ls.length = g + 1 := Nat.le_antisymm hls hge
      rw [this]

theorem groupGoF_isSome :
    ∀ (fuel : Nat) (ls : List Text) (t : Text), ls.length ≤ fuel →
      ∃ r, groupGoF fuel ls t = some r := by
  intro fuel
  induction fuel with
  | zero =>
    intro ls t hls
    have : ls = [] := List.eq_nil_of_length_eq_zero (Nat.le_zero.mp hls)
    subst this
    exact ⟨([], t), rfl⟩
  | succ g ih =>
    intro ls t hls
    cases ls with
    | nil => exact ⟨([], t), groupGoF_nil _ t⟩
    | cons l rest =>
      have hrest : rest.length ≤ g := by
        simp only [List.length_cons] at hls
        omega
      cases hv : isVerbOpen l with
      | true =>
        obtain ⟨r, hr⟩ := ih (consumeVerb (l :: rest)).2 t
          (le_trans (consumeVerb_rest_length l rest) hrest)
        exact ⟨(joinNL (consumeVerb (l :: rest)).1 :: r.1, r.2),
          by simp [groupGoF, hv, hr]⟩
      | false =>
        cases hh : startsWithHash (trim l) with
        | true =>
          cases hm : headMatch (trim l) with
          | some p =>
            obtain ⟨r, hr⟩ := ih rest (if t = dTitle then trim p.2 else t) hrest
            exact ⟨(headingFrag p.1 (trim p.2) :: r.1, r.2),
              by simp [groupGoF, hv, hh, hm, hr]⟩
          | none =>
            obtain ⟨r, hr⟩ := ih rest t hrest
            exact ⟨r, by simp [groupGoF, hv, hh, hm, hr]⟩
        | false =>
          cases hg : cbGate (trim l) with
          | true =>
            obtain ⟨r, hr⟩ := ih (consumeCbs rest).2 t
              (le_trans (consumeCbs_rest_length rest) hrest)
            exact ⟨((if (mkCheckbox (trim l)).toList ++ (consumeCbs rest).1 = []
                then []
                else cbOpenFrag
                  :: ((mkCheckbox (trim l)).toList ++ (consumeCbs rest).1)
                  ++ [cbCloseFrag]) ++ r.1, r.2),
              by simp [groupGoF, hv, hh, hg, hr]⟩
          | false =>
            cases hta : "<textarea".data.isPrefixOf (trim l) with
            | true =>
              obtain ⟨r, hr⟩ := ih rest t hrest
              exact ⟨(textareaLineFix (trim l) :: r.1, r.2),
                by simp [groupGoF, hv, hh, hg, hta, hr]⟩
            | false =>
              obtain ⟨r, hr⟩ := ih rest t hrest
              by_cases hb : trim l = []
              · have h1 : startsWithHash ([] : Text) = false := rfl
                have h2 : cbGate ([] : Text) = false := rfl
                have h3 : "<textarea".data.isPrefixOf ([] : Text) = false := by
                  decide
                exact ⟨r, by simp [groupGoF, hv, hb, h1, h2, h3, hr]⟩
              · exact ⟨(paraFrag (trim l) :: r.1, r.2),
                  by simp [groupGoF, hv, hh, hg, hta, hb, hr]⟩

theorem groupGoF_eq_groupGo (ls : List Text) (t : Text) :
    groupGoF ls.length ls t = some (groupGo ls t) := by
  obtain ⟨r, hr⟩ := groupGoF_isSome ls.length ls t (Nat.le_refl _)
  rw [groupGo, hr]
  rfl

/-!
## Branch equations for `groupGo`
-/

theorem groupGo_nil (t : Text) : groupGo [] t = ([], t) := by
  rw [groupGo, groupGoF_nil]
  rfl

theorem groupGo_cons_verb (l : Text) (rest : List Text) (t : Text)
    (hv : isVerbOpen l = true) :
    groupGo (l :: rest) t =
      (joinNL (consumeVerb (l :: rest)).1
          :: (groupGo (consumeVerb (l :: rest)).2 t).1,
        (groupGo (consumeVerb (l :: rest)).2 t).2) := by
  have h1 : groupGoF rest.length (consumeVerb (l :: rest)).2 t
      = some (groupGo (consumeVerb (l :: rest)).2 t) := by
    rw [groupGoF_of_le rest.length _ t (consumeVerb_rest_length l rest)]
    exact groupGoF_eq_groupGo _ t
  rw [groupGo]
  simp [groupGoF, hv, h1]

theorem groupGo_cons_head_some (l : Text) (rest : List Text) (t : Text)
    (p : Nat × Text) (hv : isVerbOpen l = false)
    (hh : startsWithHash (trim l) = true) (hm : headMatch (trim l) = some p) :
    groupGo (l :: rest) t =
      (headingFrag p.1 (trim p.2)
          :: (groupGo rest (if t = dTitle then trim p.2 else t)).1,
        (groupGo rest (if t = dTitle then trim p.2 else t)).2) := by
  rw [groupGo]
  simp [groupGoF, hv, hh, hm, groupGoF_eq_groupGo]

theorem groupGo_cons_head_none (l : Text) (rest : List Text) (t : Text)
    (hv : isVerbOpen l = false) (hh : startsWithHash (trim l) = true)
    (hm : headMatch (trim l) = none) :
    groupGo (l :: rest) t = groupGo rest t := by
  rw [groupGo]
  simp [groupGoF, hv, hh, hm, groupGoF_eq_groupGo]

theorem groupGo_cons_cb (l : Text) (rest : List Text) (t : Text)
    (hv : isVerbOpen l = false) (hh : startsWithHash (trim l) = false)
    (hg : cbGate (trim l) = true) :
    groupGo (l :: rest) t =
      ((if (mkCheckbox (trim l)).toList ++ (consumeCbs rest).1 = [] then []
        else cbOpenFrag :: ((mkCheckbox (trim l)).toList ++ (consumeCbs rest).1)
          ++ [cbCloseFrag]) ++ (groupGo (consumeCbs rest).2 t).1,
       (groupGo (consumeCbs rest).2 t).2) := by
  have h1 : groupGoF rest.length (consumeCbs rest).2 t
      = some (groupGo (consumeCbs rest).2 t) := by
    rw [groupGoF_of_le rest.length _ t (consumeCbs_rest_length rest)]
    exact groupGoF_eq_groupGo _ t
  rw [groupGo]
  simp [groupGoF, hv, hh, hg, h1]

theorem groupGo_cons_ta (l : Text) (rest : List Text) (t : Text)
    (hv : isVerbOpen l = false) (hh : startsWithHash (trim l) = false)
    (hg : cbGate (trim l) = false)
    (hta : "<textarea".data.isPrefixOf (trim l) = true) :
    groupGo (l :: rest) t =
      (textareaLineFix (trim l) :: (groupGo rest t).1, (groupGo rest t).2) := by
  rw [groupGo]
  simp [groupGoF, hv, hh, hg, hta, groupGoF_eq_groupGo]

theorem groupGo_cons_blank (l : Text) (rest : List Text) (t : Text)
    (hv : isVerbOpen l = false) (hh : startsWithHash (trim l) = false)
    (hg : cbGate (trim l) = false)
    (hta : "<textarea".data.isPrefixOf (trim l) = false)
    (hb : trim l = []) :
    groupGo (l :: rest) t = groupGo rest t := by
  have h1 : startsWithHash ([] : Text) = false := rfl
  have h2 : cbGate ([] : Text) = false := rfl
  have h3 : "<textarea".data.isPrefixOf ([] : Text) = false := by decide
  rw [groupGo]
  simp [groupGoF, hv, hb, h1, h2, h3, groupGoF_eq_groupGo]

theorem groupGo_cons_para (l : Text) (rest : List Text) (t : Text)
    (hv : isVerbOpen l = false) (hh : startsWithHash (trim l) = false)
    (hg : cbGate (trim l) = false)
    (hta : "<textarea".data.isPrefixOf (trim l) = false)
    (hb : trim l ≠ []) :
    groupGo (l :: rest) t =
      (paraFrag (trim l) :: (groupGo rest t).1, (groupGo rest t).2) := by
  rw [groupGo]
  simp [groupGoF, hv, hh, hg, hta, hb, groupGoF_eq_groupGo]

/-!
## More `occursIn` helpers
-/

theorem occursIn_append_left (n a b : Text) (h : occursIn n a = true) :
    occursIn n (a ++ b) = true := by
  obtain ⟨x, y, hxy⟩ := (occursIn_iff n a).mp h
  exact (occursIn_iff n _).mpr ⟨x, y ++ b, by simp [hxy]⟩

theorem occursIn_self (n : Text) : occursIn n n = true :=
  (occursIn_iff n n).mpr ⟨[], [], by simp⟩

theorem occursIn_joinNL_of_mem (s : Text) :
    ∀ rs : List Text, s ∈ rs → occursIn s (joinNL rs) = true := by
  intro rs
  induction rs with
  | nil => intro h; cases h
  | cons r rest ih =>
    intro h
    cases rest with
    | nil =>
      have : s = r := by simpa using h
      subst this
      exact occursIn_self s
    | cons r2 rest2 =>
      rcases List.mem_cons.mp h with rfl | h2
      · exact occursIn_append_left _ _ _ (occursIn_self s)
      · show occursIn s (r ++ '\n' :: joinNL (r2 :: rest2)) = true
        have : ('\n' :: joinNL (r2 :: rest2)) = ['\n'] ++ joinNL (r2 :: rest2) := rfl
        rw [this]
        exact occursIn_append_right _ _ _
          (occursIn_append_right _ _ _ (ih h2))

/-!
## The language directive pass: matches always start with `#lang:`
-/

theorem tryLangDirective_none_of_no_lead (t : Text)
    (h : "#lang:".data.isPrefixOf t = false) : tryLangDirective t = none := by
  unfold tryLangDirective
  split
  · rename_i cs
    exfalso
    have : "#lang:".data.isPrefixOf
        ('#' :: 'l' :: 'a' :: 'n' :: 'g' :: ':' :: cs) = true := by
      have hd : "#lang:".data = ['#', 'l', 'a', 'n', 'g', ':'] := by decide
      rw [hd]
      simp [List.isPrefixOf]
    rw [this] at h
    exact Bool.true_eq_false.mp h
  · rfl

theorem langSearch_eq_none (t : Text)
    (h : occursIn "#lang:".data t = false) : langSearch t = none := by
  induction t with
  | nil => rfl
  | cons c cs ih =>
    rw [occursIn] at h
    rcases Bool.or_eq_false_iff.mp h with ⟨h1, h2⟩
    rw [langSearch, tryLangDirective_none_of_no_lead _ h1]
    exact ih h2

theorem langSub_id (t : Text)
    (h : occursIn "#lang:".data t = false) : langSub t = t := by
  induction t with
  | nil => exact scanSub_nil _
  | cons c cs ih =>
    rw [occursIn] at h
    rcases Bool.or_eq_false_iff.mp h with ⟨h1, h2⟩
    have hnone : (tryLangDirective (c :: cs)).map
        (fun p => (([] : Text), p.2)) = none := by
      rw [tryLangDirective_none_of_no_lead _ h1]
      rfl
    show scanSub _ (c :: cs) = c :: cs
    rw [scanSub_cons_none _ _ _ hnone]
    exact congrArg (c :: ·) (ih h2)

/-!
## Claims C1, C2, C3
-/

/-- C1: the claim says text captured inside a verbatim span `{{{...}}}` is
rendered exactly as captured, with widget patterns left literal.  The code
contradicts this (and its own module docstring "Content is preserved
exactly"): the verbatim pass runs *after* the widget passes, so `(())` inside
`{{{...}}}` has already been replaced by the file-input markup when the span
is captured.  This theorem evaluates the code at the failing input
`{{{(())}}}`. -/
theorem claim_C1_verbatim_bug :
    substitutedText "\x7b\x7b\x7b(())\x7d\x7d\x7d".data
      = "<code><input type=\"file\" id=\"fileLoad\" class=\"prompt-item\" /></code>".data
    ∧ occursIn "(())".data (substitutedText "\x7b\x7b\x7b(())\x7d\x7d\x7d".data) = false := by
  constructor <;> decide

/-- C2: `parse_custom_markdown` is total; in particular the line-grouping
loop terminates within one iteration per line on every input (each branch of
the loop consumes at least one line), covering both the single-line
open-and-close block and the never-closed opening marker.  The embedding of
the loop with an explicit iteration budget (`groupGoF`) returns a result
(never `none`) when the budget is the number of lines, for the lines of every
substituted input. -/
theorem claim_C2_grouping_total (md : Text) :
    groupGoF (linesOf md).length (linesOf md) dTitle
      = some (groupGo (linesOf md) dTitle) :=
  groupGoF_eq_groupGo _ _

/-- C3 counterexample: directive removal is neither exhaustive nor
idempotent.  On `#lang#lang:x#:y#` the single left-to-right removal pass
produces `#lang:y#`, which still matches the directive pattern: a second
extraction finds the directive `y`, and a second removal pass changes the
text again. -/
theorem claim_C3_counterexample :
    langSub "#lang#lang:x#:y#".data = "#lang:y#".data
    ∧ langSearch (langSub "#lang#lang:x#:y#".data) = some "y".data
    ∧ langSub (langSub "#lang#lang:x#:y#".data)
        ≠ langSub "#lang#lang:x#:y#".data := by
  refine ⟨by decide, by decide, by decide⟩

/-- C3 (amended): the removal pass deletes every non-overlapping
left-to-right match present in the input, but deletion can splice the
surrounding text into a new directive, so the produced text may match the
pattern again.  Whenever the produced text contains no occurrence of
`#lang:` — which holds for every input in which removals do not abut partial
directives — a second extraction finds no directive and a second removal
changes nothing. -/
theorem claim_C3_amended (md : Text)
    (h : occursIn "#lang:".data (langSub md) = false) :
    langSearch (langSub md) = none ∧ langSub (langSub md) = langSub md :=
  ⟨langSearch_eq_none _ h, langSub_id _ h⟩

theorem claim_C3_amended_witness :
    occursIn "#lang:".data (langSub "#lang:jp#\nSome content here.".data) = false
    ∧ langSearch (langSub "#lang:jp#\nSome content here.".data) = none
    ∧ langSub (langSub "#lang:jp#\nSome content here.".data)
        = langSub "#lang:jp#\nSome content here.".data :=
  ⟨by decide, (claim_C3_amended "#lang:jp#\nSome content here.".data (by decide)).1,
    (claim_C3_amended "#lang:jp#\nSome content here.".data (by decide)).2⟩

/-!
## Style-rule membership and document containment
-/

theorem mem_ite_nil (a : Text) (c : Prop) [Decidable c] (l : List Text) :
    (a ∈ if c then l else []) ↔ c ∧ a ∈ l := by
  split <;> simp_all

/-- The document is the assembly template with the six computed pieces. -/
theorem doc_decomp (md : Text) :
    (parseCustomMarkdown md).1
      = "<!DOCTYPE html>\n<html lang=\"".data ++ langOf md
        ++ "\">\n<head>\n  <meta charset=\"UTF-8\" />\n  <title>".data
        ++ (groupOf md).2 ++ "</title>\n  ".data
        ++ styleBlock (htmlBodyOf md) ++ "\n</head>\n<body>\n".data
        ++ htmlBodyOf md ++ "\n\n<button id=\"generateButton\">".data
        ++ buttonLabelFor (normalizeLangKey (langOf md))
        ++ "</button>\n\n<div class=\"result-box\" id=\"resultPrompt\" hidden></div>\n\n".data
        ++ scriptBlock (hasFileInput (htmlBodyOf md))
        ++ "\n\n</body>\n</html>\n".data := rfl

theorem styleBlock_in_doc (md : Text) :
    occursIn (styleBlock (htmlBodyOf md)) (parseCustomMarkdown md).1 = true := by
  refine (occursIn_iff _ _).mpr
    ⟨"<!DOCTYPE html>\n<html lang=\"".data ++ langOf md
        ++ "\">\n<head>\n  <meta charset=\"UTF-8\" />\n  <title>".data
        ++ (groupOf md).2 ++ "</title>\n  ".data,
      "\n</head>\n<body>\n".data ++ htmlBodyOf md
        ++ "\n\n<button id=\"generateButton\">".data
        ++ buttonLabelFor (normalizeLangKey (langOf md))
        ++ "</button>\n\n<div class=\"result-box\" id=\"resultPrompt\" hidden></div>\n\n".data
        ++ scriptBlock (hasFileInput (htmlBodyOf md))
        ++ "\n\n</body>\n</html>\n".data, ?_⟩
  rw [doc_decomp]
  simp only [List.append_assoc]

theorem rule_in_doc_of_mem (md : Text) (s : Text)
    (h : s ∈ styleRules (htmlBodyOf md)) :
    occursIn s (parseCustomMarkdown md).1 = true := by
  refine occursIn_trans s (styleBlock (htmlBodyOf md)) _ ?_ (styleBlock_in_doc md)
  obtain ⟨x, y, hxy⟩ := (occursIn_iff s _).mp (occursIn_joinNL_of_mem s _ h)
  refine (occursIn_iff _ _).mpr ⟨"<style>\n".data ++ x, y ++ "\n</style>".data, ?_⟩
  simp only [styleBlock, hxy, List.append_assoc]

set_option maxHeartbeats 1600000 in
/-- C4 counterexample: for the empty input the generate button's own CSS rule
is absent from the conditionally built style rules (the emptiness check is
`"<button" in html_body`, and `html_body` — the `promptContent` container —
never contains the button element), refuting "always present in the style
block". -/
theorem claim_C4_counterexample :
    buttonRule ∉ styleRules (htmlBodyOf [])
    ∧ occursIn "button \x7b".data (styleBlock (htmlBodyOf [])) = false := by
  constructor <;> decide

/-- C4 (amended): the fixed result-display rule is always present in the
style block; the generate button's rule, however, is gated on the literal
`<button` occurring in the body container only — which does not include the
always-emitted button element below it — so it is present exactly when some
body fragment contains `<button`, and absent for e.g. the empty input. -/
theorem claim_C4_amended (md : Text) :
    resultBoxRule ∈ styleRules (htmlBodyOf md)
    ∧ occursIn resultBoxRule (parseCustomMarkdown md).1 = true
    ∧ (buttonRule ∈ styleRules (htmlBodyOf md)
        ↔ occursIn "<button".data (htmlBodyOf md) = true) := by
  have n1 : buttonRule ≠ bodyRule := by decide
  have n2 : buttonRule ≠ h1Rule := by decide
  have n3 : buttonRule ≠ textareaRule := by decide
  have n4 : buttonRule ≠ inlineTextRule := by decide
  have n5 : buttonRule ≠ resultBoxRule := by decide
  have n6 : buttonRule ≠ checkboxContainerRule := by decide
  have n7 : buttonRule ≠ labelRule := by decide
  have n8 : buttonRule ≠ commentRule := by decide
  have n9 : buttonRule ≠ inlineInputRule := by decide
  have hmem : resultBoxRule ∈ styleRules (htmlBodyOf md) := by
    simp [styleRules]
  refine ⟨hmem, rule_in_doc_of_mem md _ hmem, ?_⟩
  simp [styleRules, mem_ite_nil, n1, n2, n3, n4, n5, n6, n7, n8, n9]

/-- C10: every emitted document — whatever the input, including the empty
string — contains the generate button with id `generateButton`, the hidden
result area with id `resultPrompt`, the `promptContent` body container, and
both unconditional style rules (base body styling and the result-box rule). -/
theorem claim_C10_fixed_document_parts (md : Text) :
    occursIn "<button id=\"generateButton\">".data (parseCustomMarkdown md).1 = true
    ∧ occursIn "<div class=\"result-box\" id=\"resultPrompt\" hidden></div>".data
        (parseCustomMarkdown md).1 = true
    ∧ occursIn "<div id=\"promptContent\">".data (parseCustomMarkdown md).1 = true
    ∧ bodyRule ∈ styleRules (htmlBodyOf md)
    ∧ resultBoxRule ∈ styleRules (htmlBodyOf md)
    ∧ occursIn bodyRule (parseCustomMarkdown md).1 = true
    ∧ occursIn resultBoxRule (parseCustomMarkdown md).1 = true := by
  have hbody : bodyRule ∈ styleRules (htmlBodyOf md) := by simp [styleRules]
  have hres : resultBoxRule ∈ styleRules (htmlBodyOf md) := by simp [styleRules]
  refine ⟨?_, ?_, ?_, hbody, hres, rule_in_doc_of_mem md _ hbody,
    rule_in_doc_of_mem md _ hres⟩
  · refine (occursIn_iff _ _).mpr
      ⟨"<!DOCTYPE html>\n<html lang=\"".data ++ langOf md
          ++ "\">\n<head>\n  <meta charset=\"UTF-8\" />\n  <title>".data
          ++ (groupOf md).2 ++ "</title>\n  ".data
          ++ styleBlock (htmlBodyOf md) ++ "\n</head>\n<body>\n".data
          ++ htmlBodyOf md ++ "\n\n".data,
        buttonLabelFor (normalizeLangKey (langOf md))
          ++ "</button>\n\n<div class=\"result-box\" id=\"resultPrompt\" hidden></div>\n\n".data
          ++ scriptBlock (hasFileInput (htmlBodyOf md))
          ++ "\n\n</body>\n</html>\n".data, ?_⟩
    rw [doc_decomp]
    have hs : "\n\n<button id=\"generateButton\">".data
        = "\n\n".data ++ "<button id=\"generateButton\">".data := by decide
    rw [hs]
    simp only [List.append_assoc]
  · refine (occursIn_iff _ _).mpr
      ⟨"<!DOCTYPE html>\n<html lang=\"".data ++ langOf md
          ++ "\">\n<head>\n  <meta charset=\"UTF-8\" />\n  <title>".data
          ++ (groupOf md).2 ++ "</title>\n  ".data
          ++ styleBlock (htmlBodyOf md) ++ "\n</head>\n<body>\n".data
          ++ htmlBodyOf md ++ "\n\n<button id=\"generateButton\">".data
          ++ buttonLabelFor (normalizeLangKey (langOf md))
          ++ "</button>\n\n".data,
        "\n\n".data ++ scriptBlock (hasFileInput (htmlBodyOf md))
          ++ "\n\n</body>\n</html>\n".data, ?_⟩
    rw [doc_decomp]
    have hs : "</button>\n\n<div class=\"result-box\" id=\"resultPrompt\" hidden></div>\n\n".data
        = "</button>\n\n".data
          ++ "<div class=\"result-box\" id=\"resultPrompt\" hidden></div>".data
          ++ "\n\n".data := by decide
    rw [hs]
    simp only [List.append_assoc]
  · refine (occursIn_iff _ _).mpr
      ⟨"<!DOCTYPE html>\n<html lang=\"".data ++ langOf md
          ++ "\">\n<head>\n  <meta charset=\"UTF-8\" />\n  <title>".data
          ++ (groupOf md).2 ++ "</title>\n  ".data
          ++ styleBlock (htmlBodyOf md) ++ "\n</head>\n<body>\n".data,
        "\n".data ++ joinNL (groupOf md).1 ++ "\n</div>".data
          ++ "\n\n<button id=\"generateButton\">".data
          ++ buttonLabelFor (normalizeLangKey (langOf md))
          ++ "</button>\n\n<div class=\"result-box\" id=\"resultPrompt\" hidden></div>\n\n".data
          ++ scriptBlock (hasFileInput (htmlBodyOf md))
          ++ "\n\n</body>\n</html>\n".data, ?_⟩
    rw [doc_decomp]
    have hs : htmlBodyOf md
        = "<div id=\"promptContent\">".data ++ "\n".data
          ++ joinNL (groupOf md).1 ++ "\n</div>".data := by
      show mkHtmlBody (groupOf md).1 = _
      rw [mkHtmlBody]
      have : "<div id=\"promptContent\">\n".data
          = "<div id=\"promptContent\">".data ++ "\n".data := by decide
      rw [this]
    rw [hs]
    simp only [List.append_assoc]

/-!
## Claim C9: language code, normalization, and button label
-/

/-- C9: the returned language code is the first directive token verbatim
(defaulting to `en` when no directive is present) and is inserted unmodified
into the document's `lang` attribute, while the button label is selected from
the label table by the normalized key (lower-cased, with `jp` mapped to
`ja`), any unrecognized key falling back to the `en` label. -/
theorem claim_C9_language_handling (md : Text) :
    (parseCustomMarkdown md).2 = (langSearch md).getD "en".data
    ∧ (langSearch md = none → (parseCustomMarkdown md).2 = "en".data)
    ∧ occursIn ("<html lang=\"".data ++ (parseCustomMarkdown md).2 ++ "\">".data)
        (parseCustomMarkdown md).1 = true
    ∧ occursIn ("<button id=\"generateButton\">".data
        ++ buttonLabelFor (normalizeLangKey ((parseCustomMarkdown md).2))
        ++ "</button>".data) (parseCustomMarkdown md).1 = true
    ∧ normalizeLangKey "jp".data = "ja".data
    ∧ normalizeLangKey "JP".data = "ja".data
    ∧ (parseCustomMarkdown "#lang:jp#\nSome content here.".data).2 = "jp".data
    ∧ buttonLabelFor (normalizeLangKey "jp".data) = jaLabel
    ∧ (∀ k : Text, k ≠ "en".data → k ≠ "ja".data → k ≠ "fr".data →
        k ≠ "it".data → k ≠ "es".data → buttonLabelFor k = enLabel) := by
  have h2 : (parseCustomMarkdown md).2 = langOf md := rfl
  refine ⟨rfl, ?_, ?_, ?_, by decide, by decide, by decide, by decide, ?_⟩
  · intro h
    simp [parseCustomMarkdown, langOf, h]
  · refine (occursIn_iff _ _).mpr
      ⟨"<!DOCTYPE html>\n".data,
        "\n<head>\n  <meta charset=\"UTF-8\" />\n  <title>".data
          ++ (groupOf md).2 ++ "</title>\n  ".data
          ++ styleBlock (htmlBodyOf md) ++ "\n</head>\n<body>\n".data
          ++ htmlBodyOf md ++ "\n\n<button id=\"generateButton\">".data
          ++ buttonLabelFor (normalizeLangKey (langOf md))
          ++ "</button>\n\n<div class=\"result-box\" id=\"resultPrompt\" hidden></div>\n\n".data
          ++ scriptBlock (hasFileInput (htmlBodyOf md))
          ++ "\n\n</body>\n</html>\n".data, ?_⟩
    rw [h2, doc_decomp]
    have h0 : "<!DOCTYPE html>\n<html lang=\"".data
        = "<!DOCTYPE html>\n".data ++ "<html lang=\"".data := by decide
    have h1 : "\">\n<head>\n  <meta charset=\"UTF-8\" />\n  <title>".data
        = "\">".data ++ "\n<head>\n  <meta charset=\"UTF-8\" />\n  <title>".data := by
      decide
    rw [h0, h1]
    simp only [List.append_assoc]
  · refine (occursIn_iff _ _).mpr
      ⟨"<!DOCTYPE html>\n<html lang=\"".data ++ langOf md
          ++ "\">\n<head>\n  <meta charset=\"UTF-8\" />\n  <title>".data
          ++ (groupOf md).2 ++ "</title>\n  ".data
          ++ styleBlock (htmlBodyOf md) ++ "\n</head>\n<body>\n".data
          ++ htmlBodyOf md ++ "\n\n".data,
        "\n\n<div class=\"result-box\" id=\"resultPrompt\" hidden></div>\n\n".data
          ++ scriptBlock (hasFileInput (htmlBodyOf md))
          ++ "\n\n</body>\n</html>\n".data, ?_⟩
    rw [h2, doc_decomp]
    have h0 : "\n\n<button id=\"generateButton\">".data
        = "\n\n".data ++ "<button id=\"generateButton\">".data := by decide
    have h1 : "</button>\n\n<div class=\"result-box\" id=\"resultPrompt\" hidden></div>\n\n".data
        = "</button>".data
          ++ "\n\n<div class=\"result-box\" id=\"resultPrompt\" hidden></div>\n\n".data := by
      decide
    rw [h0, h1]
    simp only [List.append_assoc]
  · intro k k1 k2 k3 k4 k5
    simp [buttonLabelFor, k1, k2, k3, k4, k5]

theorem claim_C9_witness :
    (parseCustomMarkdown "plain text".data).2 = "en".data
    ∧ buttonLabelFor "de".data = enLabel :=
  ⟨(claim_C9_language_handling "plain text".data).2.1 (by decide),
   (claim_C9_language_handling []).2.2.2.2.2.2.2.2 "de".data (by decide)
     (by decide) (by decide) (by decide) (by decide)⟩

/-!
## Claim C8: checkbox runs, identifiers and checked state
-/

theorem drop_takeWhile_length (q : Char → Bool) :
    ∀ l : Text, l.drop (l.takeWhile q).length = l.dropWhile q := by
  intro l
  induction l with
  | nil => rfl
  | cons a as ih =>
    cases hq : q a with
    | true => simp [List.takeWhile_cons, List.dropWhile_cons, hq, ih]
    | false => simp [List.takeWhile_cons, List.dropWhile_cons, hq]

theorem filter_dropWhile (p : Char → Bool) :
    ∀ cs : Text,
      (cs.dropWhile p).filter (fun c => !p c) = cs.filter (fun c => !p c) := by
  intro cs
  induction cs with
  | nil => rfl
  | cons a as ih =>
    cases hp : p a with
    | true => simp [List.dropWhile_cons, List.filter_cons, hp, ih]
    | false => simp [List.dropWhile_cons, hp]

theorem dropWhile_length_le (q : Char → Bool) :
    ∀ l : Text, (l.dropWhile q).length ≤ l.length := by
  intro l
  induction l with
  | nil => exact Nat.le_refl _
  | cons a as ih =>
    cases hq : q a with
    | true =>
      simp only [List.dropWhile_cons, hq, if_true]
      exact le_trans ih (Nat.le_succ _)
    | false => simp [List.dropWhile_cons, hq]

/-- Deleting every non-empty run of `p`-characters, scanning left to right as
`re.sub` does, is the same as filtering out the `p`-characters. -/
theorem scanSub_runOf_filter (p : Char → Bool) :
    ∀ (n : Nat) (t : Text), t.length ≤ n →
      scanSub (tryRunOf p) t = t.filter (fun c => !p c) := by
  intro n
  induction n with
  | zero =>
    intro t ht
    have : t = [] := List.eq_nil_of_length_eq_zero (Nat.le_zero.mp ht)
    subst this
    simp [scanSub_nil]
  | succ m ih =>
    intro t ht
    cases t with
    | nil => simp [scanSub_nil]
    | cons c cs =>
      have hcs : cs.length ≤ m := by
        simp only [List.length_cons] at ht
        omega
      cases hp : p c with
      | false =>
        have hnone : tryRunOf p (c :: cs) = none := by
          simp [tryRunOf, List.takeWhile_cons, hp]
        rw [scanSub_cons_none _ _ _ hnone, ih cs hcs]
        simp [List.filter_cons, hp]
      | true =>
        have hw : (c :: cs).takeWhile p = c :: cs.takeWhile p := by
          simp [List.takeWhile_cons, hp]
        have hsome : tryRunOf p (c :: cs)
            = some ([], ((c :: cs).takeWhile p).length) := by
          simp [tryRunOf, hw]
        rw [scanSub_cons_some _ _ _ _ _ hsome]
        have hmax : max ((c :: cs).takeWhile p).length 1
            = ((c :: cs).takeWhile p).length := by
          rw [hw]
          simp
        rw [hmax, drop_takeWhile_length]
        have hdw : (c :: cs).dropWhile p = cs.dropWhile p := by
          simp [List.dropWhile_cons, hp]
        rw [hdw]
        have hlen : (cs.dropWhile p).length ≤ m :=
          le_trans (dropWhile_length_le p cs) hcs
        rw [ih _ hlen, filter_dropWhile]
        simp [List.filter_cons, hp]

/-- The inner checkbox regex on a line `[c] label` with `c` one of the gate
characters and a pre-trimmed non-empty label: the fragment carries the
identifier derived from the label and is checked exactly for `x`/`X`. -/
theorem mkCheckbox_spec (c : Char) (lab : Text)
    (hc : c = 'x' ∨ c = 'X' ∨ c = ' ') (hne : lab ≠ [])
    (hl : trimLeft lab = lab) (hr : trimRight lab = lab) :
    mkCheckbox ('[' :: c :: ']' :: ' ' :: lab)
      = some (cbFragment (stripNonWord (stripWs lab))
          (c == 'x' || c == 'X') lab) := by
  have hl' : lab.dropWhile isSpaceChar = lab := hl
  have hr' : (lab.reverse.dropWhile isSpaceChar).reverse = lab := hr
  have hs1 : isSpaceChar ' ' = true := rfl
  have hs2 : isSpaceChar 'x' = false := rfl
  have hs3 : isSpaceChar 'X' = false := rfl
  rcases hc with rfl | rfl | rfl <;>
    simp [mkCheckbox, trimLeft, trim, trimRight, List.dropWhile_cons, hl', hr',
      hne, toLowerText, hs1, hs2, hs3]

set_option maxHeartbeats 1600000 in
/-- C8: a run of consecutive checkbox lines becomes one
`checkbox-container` with one labeled checkbox fragment per line, in order
(evaluated on the claim's example); each checkbox identifier is the label
with all whitespace deleted and then all non-word characters deleted
(the two `re.sub` passes equal the two filters), and the checked state is
true exactly for status character `x` or `X`. -/
theorem claim_C8_checkboxes :
    (groupOf "[ ] Option 1\n[x] Option 2".data).1
      = [cbOpenFrag,
         cbFragment "Option1".data false "Option 1".data,
         cbFragment "Option2".data true "Option 2".data,
         cbCloseFrag]
    ∧ (∀ t : Text, stripWs t = t.filter (fun c => !isSpaceChar c))
    ∧ (∀ t : Text, stripNonWord t = t.filter isWordChar)
    ∧ (∀ (c : Char) (lab : Text), c = 'x' ∨ c = 'X' ∨ c = ' ' → lab ≠ [] →
        trimLeft lab = lab → trimRight lab = lab →
        mkCheckbox ('[' :: c :: ']' :: ' ' :: lab)
          = some (cbFragment (stripNonWord (stripWs lab))
              (c == 'x' || c == 'X') lab)) := by
  refine ⟨by decide, ?_, ?_, mkCheckbox_spec⟩
  · intro t
    exact scanSub_runOf_filter isSpaceChar t.length t (Nat.le_refl _)
  · intro t
    have h := scanSub_runOf_filter (fun c => !isWordChar c) t.length t
      (Nat.le_refl _)
    simpa using h

theorem claim_C8_witness :
    mkCheckbox ('[' :: ' ' :: ']' :: ' ' :: "Go".data)
      = some (cbFragment (stripNonWord (stripWs "Go".data))
          (' ' == 'x' || ' ' == 'X') "Go".data) :=
  claim_C8_checkboxes.2.2.2 ' ' "Go".data (Or.inr (Or.inr rfl)) (by decide)
    (by decide) (by decide)

/-!
## Claim C6: the document title
-/

theorem consumeCbs_decomp : ∀ ls : List Text,
    ∃ pre, ls = pre ++ (consumeCbs ls).2
      ∧ ∀ x ∈ pre, cbGate (trim x) = true := by
  intro ls
  induction ls with
  | nil => exact ⟨[], rfl, by simp⟩
  | cons l rest ih =>
    cases hg : cbGate (trim l) with
    | true =>
      obtain ⟨pre, hpre, hall⟩ := ih
      refine ⟨l :: pre, ?_, ?_⟩
      · have h2 : (consumeCbs (l :: rest)).2 = (consumeCbs rest).2 := by
          simp [consumeCbs, hg]
        rw [h2]
        exact congrArg (l :: ·) hpre
      · intro x hx
        rcases List.mem_cons.mp hx with rfl | hx2
        · exact hg
        · exact hall x hx2
    | false =>
      refine ⟨[], ?_, by simp⟩
      simp [consumeCbs, hg]

theorem startsWithHash_false_of_cbGate (t : Text) (h : cbGate t = true) :
    startsWithHash t = false := by
  unfold cbGate at h
  split at h
  · rfl
  · simp at h

theorem lineHeading_none_of_not_hash (l : Text)
    (h : startsWithHash (trim l) = false) : lineHeading l = none := by
  simp [lineHeading, h]

theorem headingTexts_skip_cbs (rest : List Text) :
    headingTexts rest = headingTexts (consumeCbs rest).2 := by
  obtain ⟨pre, hpre, hall⟩ := consumeCbs_decomp rest
  have hpre_none : pre.filterMap lineHeading = [] := by
    rw [List.filterMap_eq_nil]
    intro x hx
    exact lineHeading_none_of_not_hash x
      (startsWithHash_false_of_cbGate _ (hall x hx))
  conv_lhs => rw [headingTexts, hpre]
  rw [List.filterMap_append, hpre_none]
  rfl

/-- The final `title` of the grouping loop, for line sequences containing no
block-verbatim opener: it stays at its initial value unless that value is the
default, in which case it becomes the first heading text different from the
default (a heading whose text is exactly the default cannot claim the
title). -/
theorem groupGo_title :
    ∀ (n : Nat) (ls : List Text) (t : Text), ls.length ≤ n →
      (∀ l ∈ ls, isVerbOpen l = false) →
      (groupGo ls t).2
        = if t = dTitle
          then ((headingTexts ls).find?
              (fun s => !decide (s = dTitle))).getD dTitle
          else t := by
  intro n
  induction n with
  | zero =>
    intro ls t hlen _
    have : ls = [] := List.eq_nil_of_length_eq_zero (Nat.le_zero.mp hlen)
    subst this
    by_cases ht : t = dTitle <;> simp [groupGo_nil, headingTexts, ht]
  | succ m ih =>
    intro ls t hlen hv
    cases ls with
    | nil =>
      by_cases ht : t = dTitle <;> simp [groupGo_nil, headingTexts, ht]
    | cons l rest =>
      have hvl : isVerbOpen l = false := hv l (List.mem_cons_self _ _)
      have hvrest : ∀ x ∈ rest, isVerbOpen x = false :=
        fun x hx => hv x (List.mem_cons_of_mem _ hx)
      have hrest : rest.length ≤ m := by
        simp only [List.length_cons] at hlen
        omega
      cases hh : startsWithHash (trim l) with
      | true =>
        cases hm : headMatch (trim l) with
        | some p =>
          rw [groupGo_cons_head_some l rest t p hvl hh hm]
          have hht : headingTexts (l :: rest)
              = trim p.2 :: headingTexts rest := by
            simp [headingTexts, lineHeading, hh, hm]
          rw [hht]
          have hrec := ih rest (if t = dTitle then trim p.2 else t) hrest hvrest
          by_cases ht : t = dTitle
          · by_cases hp : trim p.2 = dTitle
            · simp only [ht, if_true, hp] at hrec ⊢
              simp [hrec, List.find?]
            · simp only [ht, if_true] at hrec ⊢
              simp only [hp, if_false] at hrec
              simp [hrec, List.find?, hp]
          · simp only [ht, if_false] at hrec ⊢
            simp [hrec, ht]
        | none =>
          rw [groupGo_cons_head_none l rest t hvl hh hm]
          have hht : headingTexts (l :: rest) = headingTexts rest := by
            simp [headingTexts, lineHeading, hh, hm]
          rw [hht]
          exact ih rest t hrest hvrest
      | false =>
        have hht : headingTexts (l :: rest) = headingTexts rest := by
          simp [headingTexts, lineHeading_none_of_not_hash l hh]
        rw [hht]
        cases hg : cbGate (trim l) with
        | true =>
          rw [groupGo_cons_cb l rest t hvl hh hg]
          have hsub : (consumeCbs rest).2.length ≤ m :=
            le_trans (consumeCbs_rest_length rest) hrest
          have hvsub : ∀ x ∈ (consumeCbs rest).2, isVerbOpen x = false := by
            intro x hx
            apply hvrest
            obtain ⟨pre, hpre, _⟩ := consumeCbs_decomp rest
            rw [hpre]
            exact List.mem_append_right _ hx
          have hrec := ih (consumeCbs rest).2 t hsub hvsub
          rw [headingTexts_skip_cbs rest]
          simpa using hrec
        | false =>
          cases hta : "<textarea".data.isPrefixOf (trim l) with
          | true =>
            rw [groupGo_cons_ta l rest t hvl hh hg hta]
            simpa using ih rest t hrest hvrest
          | false =>
            by_cases hb : trim l = []
            · rw [groupGo_cons_blank l rest t hvl hh hg hta hb]
              exact ih rest t hrest hvrest
            · rw [groupGo_cons_para l rest t hvl hh hg hta hb]
              simpa using ih rest t hrest hvrest

/-- C6 counterexample: in `# Document` followed by `# Other` the first
heading's text is `Document`, yet the final title is `Other` — the second
heading overrides it, because the loop treats a title equal to the default
as "not yet set". -/
theorem claim_C6_counterexample :
    (groupOf "# Document\n# Other".data).2 = "Other".data
    ∧ headingTexts (linesOf "# Document\n# Other".data)
        = ["Document".data, "Other".data] := by
  constructor <;> decide

/-- C6 (amended): for inputs whose (substituted) lines contain no
block-verbatim opener, the document title is the first heading text that
differs from the default `Document`; headings whose text is exactly
`Document` coincide with the default and do not fix the title, so a later
heading can still set it.  If there is no heading (or only `Document`-texted
ones), the title is the default `Document`. -/
theorem claim_C6_amended_title (md : Text)
    (hv : ∀ l ∈ linesOf md, isVerbOpen l = false) :
    (groupOf md).2
      = ((headingTexts (linesOf md)).find?
          (fun s => !decide (s = dTitle))).getD dTitle := by
  have h := groupGo_title (linesOf md).length (linesOf md) dTitle
    (Nat.le_refl _) hv
  simpa [groupOf] using h

theorem claim_C6_amended_title_witness :
    (∀ l ∈ linesOf "# My Document\nThis is a paragraph.".data,
      isVerbOpen l = false)
    ∧ (groupOf "# My Document\nThis is a paragraph.".data).2
        = ((headingTexts (linesOf "# My Document\nThis is a paragraph.".data)).find?
            (fun s => !decide (s = dTitle))).getD dTitle :=
  ⟨by decide, claim_C6_amended_title "# My Document\nThis is a paragraph.".data
    (by decide)⟩

/-!
## Claim C7: paragraph wrapping of ordinary lines
-/

theorem groupGo_para_mem :
    ∀ (n : Nat) (ls : List Text) (t : Text), ls.length ≤ n →
      (∀ x ∈ ls, isVerbOpen x = false) →
      ∀ l ∈ ls, trim l ≠ [] → startsWithHash (trim l) = false →
        cbGate (trim l) = false →
        "<textarea".data.isPrefixOf (trim l) = false →
        paraFrag (trim l) ∈ (groupGo ls t).1 := by
  intro n
  induction n with
  | zero =>
    intro ls t hlen _ l hmem
    have : ls = [] := List.eq_nil_of_length_eq_zero (Nat.le_zero.mp hlen)
    subst this
    cases hmem
  | succ m ih =>
    intro ls t hlen hv l hmem hne hhash hgate hta
    cases ls with
    | nil => cases hmem
    | cons l0 rest =>
      have hvl0 : isVerbOpen l0 = false := hv l0 (List.mem_cons_self _ _)
      have hvrest : ∀ x ∈ rest, isVerbOpen x = false :=
        fun x hx => hv x (List.mem_cons_of_mem _ hx)
      have hrest : rest.length ≤ m := by
        simp only [List.length_cons] at hlen
        omega
      rcases List.mem_cons.mp hmem with rfl | hmem2
      · rw [groupGo_cons_para l rest t hvl0 hhash hgate hta hne]
        exact List.mem_cons_self _ _
      · cases hh0 : startsWithHash (trim l0) with
        | true =>
          cases hm0 : headMatch (trim l0) with
          | some p =>
            rw [groupGo_cons_head_some l0 rest t p hvl0 hh0 hm0]
            exact List.mem_cons_of_mem _
              (ih rest _ hrest hvrest l hmem2 hne hhash hgate hta)
          | none =>
            rw [groupGo_cons_head_none l0 rest t hvl0 hh0 hm0]
            exact ih rest t hrest hvrest l hmem2 hne hhash hgate hta
        | false =>
          cases hg0 : cbGate (trim l0) with
          | true =>
            rw [groupGo_cons_cb l0 rest t hvl0 hh0 hg0]
            obtain ⟨pre, hpre, hall⟩ := consumeCbs_decomp rest
            have hsub : (consumeCbs rest).2.length ≤ m :=
              le_trans (consumeCbs_rest_length rest) hrest
            have hvsub : ∀ x ∈ (consumeCbs rest).2, isVerbOpen x = false :=
              fun x hx => hvrest x
                (by rw [hpre]; exact List.mem_append_right _ hx)
            have hmem3 : l ∈ (consumeCbs rest).2 := by
              rw [hpre] at hmem2
              rcases List.mem_append.mp hmem2 with hin | hin
              · exact absurd (hall l hin) (by simp [hgate])
              · exact hin
            exact List.mem_append_right _
              (ih _ t hsub hvsub l hmem3 hne hhash hgate hta)
          | false =>
            cases hta0 : "<textarea".data.isPrefixOf (trim l0) with
            | true =>
              rw [groupGo_cons_ta l0 rest t hvl0 hh0 hg0 hta0]
              exact List.mem_cons_of_mem _
                (ih rest t hrest hvrest l hmem2 hne hhash hgate hta)
            | false =>
              by_cases hb0 : trim l0 = []
              · rw [groupGo_cons_blank l0 rest t hvl0 hh0 hg0 hta0 hb0]
                exact ih rest t hrest hvrest l hmem2 hne hhash hgate hta
              · rw [groupGo_cons_para l0 rest t hvl0 hh0 hg0 hta0 hb0]
                exact List.mem_cons_of_mem _
                  (ih rest t hrest hvrest l hmem2 hne hhash hgate hta)

/-- C7 counterexample: the line `#` is non-blank, is not a heading line in
the claim's sense (no `#`-run followed by a space and text), no checkbox, no
verbatim and no text-box fragment — yet the body fragment list is empty: the
heading branch claims every line starting with `#` and silently drops those
the header pattern rejects, so the line is not wrapped in a paragraph. -/
theorem claim_C7_counterexample :
    (groupOf "#".data).1 = [] ∧ trim "#".data ≠ [] := by
  constructor <;> decide

/-- C7 (amended): every line whose trimmed form is non-blank, does not begin
with `#` (lines beginning with `#` are taken by the heading branch, which
drops those failing the header pattern), is not a checkbox-gate line, does
not begin with `<textarea`, and — so that no verbatim continuation can
swallow it — under the hypothesis that no line of the input opens a
block-verbatim fragment, is wrapped as `<p class="prompt-item">…</p>` (with
the trimmed text) in the body fragment list. -/
theorem claim_C7_amended_paragraphs (md : Text)
    (hv : ∀ x ∈ linesOf md, isVerbOpen x = false) :
    ∀ l ∈ linesOf md, trim l ≠ [] → startsWithHash (trim l) = false →
      cbGate (trim l) = false →
      "<textarea".data.isPrefixOf (trim l) = false →
      paraFrag (trim l) ∈ (groupOf md).1 :=
  groupGo_para_mem (linesOf md).length (linesOf md) dTitle (Nat.le_refl _) hv

theorem claim_C7_amended_paragraphs_witness :
    paraFrag (trim "Hello world".data) ∈ (groupOf "Hello world".data).1 :=
  claim_C7_amended_paragraphs "Hello world".data (by decide)
    "Hello world".data (by decide) (by decide) (by decide) (by decide)
    (by decide)

/-!
## Claim C5: empty placeholders and empty prefilled text
-/

theorem not_space_of_alnum (c : Char) (h : c.isAlphanum = true) :
    isSpaceChar c = false := by
  cases hs : isSpaceChar c
  · rfl
  · exfalso
    simp only [isSpaceChar, Bool.or_eq_true, decide_eq_true_eq] at hs
    rcases hs with ((((rfl | rfl) | rfl) | rfl) | rfl) | rfl <;>
      exact absurd h (by decide)

theorem ne_colon_of_alnum (c : Char) (h : c.isAlphanum = true) : c ≠ ':' := by
  intro hc
  subst hc
  exact absurd h (by decide)

theorem ne_quote_of_alnum (c : Char) (h : c.isAlphanum = true) : c ≠ '"' := by
  intro hc
  subst hc
  exact absurd h (by decide)

theorem takeWhile_append_stop (q : Char → Bool) (x : Char) (r : Text)
    (hx : q x = false) :
    ∀ p : Text, (∀ c ∈ p, q c = true) → (p ++ x :: r).takeWhile q = p := by
  intro p
  induction p with
  | nil => intro _; simp [List.takeWhile_cons, hx]
  | cons a as ih =>
    intro hall
    have ha : q a = true := hall a (List.mem_cons_self _ _)
    simp [List.takeWhile_cons, ha,
      ih (fun c hc => hall c (List.mem_cons_of_mem _ hc))]

theorem dropWhile_eq_self_head (q : Char → Bool) (p : Text)
    (h : ∀ c ∈ p, q c = false) : p.dropWhile q = p := by
  cases p with
  | nil => rfl
  | cons c cs => simp [List.dropWhile_cons, h c (List.mem_cons_self _ _)]

theorem trim_eq_self (p : Text) (h : ∀ c ∈ p, isSpaceChar c = false) :
    trim p = p := by
  have h1 : trimLeft p = p := dropWhile_eq_self_head _ p h
  have h2 : trimRight p = p := by
    show (p.reverse.dropWhile isSpaceChar).reverse = p
    rw [dropWhile_eq_self_head _ p.reverse
      (fun c hc => h c (List.mem_reverse.mp hc)), List.reverse_reverse]
  show trimRight (trimLeft p) = p
  rw [h1, h2]

theorem stripQuotes_eq_self (p : Text) (h : ∀ c ∈ p, c ≠ '"') :
    stripQuotes p = p := by
  unfold stripQuotes
  rw [dropWhile_eq_self_head _ p (fun c hc => decide_eq_false (h c hc))]
  rw [dropWhile_eq_self_head _ p.reverse
    (fun c hc => decide_eq_false (h c (List.mem_reverse.mp hc)))]
  exact List.reverse_reverse p

theorem placeholderCapture_plain (p : Text) (hne : p ≠ [])
    (hspace : ∀ c ∈ p, isSpaceChar c = false) : placeholderCapture p = p := by
  unfold placeholderCapture
  rw [show trimLeft p = p from dropWhile_eq_self_head _ p hspace]
  simp [hne, trim_eq_self p hspace]

theorem placeholderPart_of_plain (p : Text) (r : Text) (hne : p ≠ [])
    (hcolon : ∀ c ∈ p, c ≠ ':') (hspace : ∀ c ∈ p, isSpaceChar c = false) :
    placeholderPart (p ++ ':' :: r) = some (p, p.length + 1) := by
  have htw : (p ++ ':' :: r).takeWhile (fun c => c ≠ ':') = p :=
    takeWhile_append_stop _ ':' r (by decide) p
      (fun c hc => decide_eq_true (hcolon c hc))
  have hlen : p.length < (p ++ ':' :: r).length := by simp
  unfold placeholderPart
  rw [htw]
  simp [hlen, hne, placeholderCapture_plain p hne hspace]

theorem drop_past_colon (p : Text) (r : Text) :
    (p ++ ':' :: r).drop (p.length + 1) = r := by
  have h1 : p ++ ':' :: r = (p ++ [':']) ++ r := by simp
  have h2 : p.length + 1 = (p ++ [':']).length := by simp
  rw [h1, h2, List.drop_left]

theorem tryTextarea_plain (p : Text) (hne : p ≠ [])
    (hp : ∀ c ∈ p, c.isAlphanum = true) :
    tryTextarea ('[' :: '[' :: '[' :: (p ++ ':' :: "]]]".data))
      = some ("<textarea id=\"textbox\" placeholder=\"".data ++ p
          ++ "\"></textarea>".data, p.length + 7) := by
  have hcolon : ∀ c ∈ p, c ≠ ':' := fun c hc => ne_colon_of_alnum c (hp c hc)
  have hspace : ∀ c ∈ p, isSpaceChar c = false :=
    fun c hc => not_space_of_alnum c (hp c hc)
  have hquote : ∀ c ∈ p, c ≠ '"' := fun c hc => ne_quote_of_alnum c (hp c hc)
  have hlazy : lazyTail "]]]".data "]]]".data = some ([], 3) := by decide
  have ht0 : trim ([] : Text) = [] := rfl
  have hmerge : "\">".data ++ "</textarea>".data = "\"></textarea>".data := by
    decide
  simp only [tryTextarea, placeholderPart_of_plain p _ hne hcolon hspace,
    drop_past_colon, hlazy]
  simp only [Option.some.injEq, Prod.mk.injEq]
  constructor
  · simp only [replaceTextarea, trim_eq_self p hspace,
      stripQuotes_eq_self p hquote, ht0, List.nil_append, List.append_nil,
      ← List.append_assoc, ← hmerge]
    simp [List.append_assoc]
  · omega

theorem subTextarea_plain (p : Text) (hne : p ≠ [])
    (hp : ∀ c ∈ p, c.isAlphanum = true) :
    subTextarea ("[[[".data ++ p ++ ":]]]".data)
      = "<textarea id=\"textbox\" placeholder=\"".data ++ p
          ++ "\"></textarea>".data := by
  have e1 : "[[[".data = ['[', '[', '['] := rfl
  have e2 : ":]]]".data = ':' :: "]]]".data := rfl
  have hform : "[[[".data ++ p ++ ":]]]".data
      = '[' :: '[' :: '[' :: (p ++ ':' :: "]]]".data) := by
    rw [e1, e2]
    simp
  rw [hform]
  show scanSub tryTextarea _ = _
  rw [scanSub_cons_some _ _ _ _ _ (tryTextarea_plain p hne hp)]
  have hlen : ('[' :: '[' :: '[' :: (p ++ ':' :: "]]]".data)).length
      = p.length + 7 := by simp
  have hmax : max (p.length + 7) 1 = p.length + 7 := by omega
  rw [hmax, ← hlen, List.drop_length, scanSub_nil, List.append_nil]

theorem tryInlineTextbox_plain (p : Text) (hne : p ≠ [])
    (hp : ∀ c ∈ p, c.isAlphanum = true) :
    tryInlineTextbox ('[' :: '[' :: (p ++ ':' :: "]]".data))
      = some ("<input type=\"text\" class=\"inline-text\" placeholder=\"".data
          ++ p ++ "\" value=\"\" />".data, p.length + 5) := by
  have hcolon : ∀ c ∈ p, c ≠ ':' := fun c hc => ne_colon_of_alnum c (hp c hc)
  have hspace : ∀ c ∈ p, isSpaceChar c = false :=
    fun c hc => not_space_of_alnum c (hp c hc)
  have hquote : ∀ c ∈ p, c ≠ '"' := fun c hc => ne_quote_of_alnum c (hp c hc)
  have hlazy : lazyTail "]]".data "]]".data = some ([], 2) := by decide
  have ht0 : trim ([] : Text) = [] := rfl
  have hmerge : "\" value=\"".data ++ "\" />".data = "\" value=\"\" />".data := by
    decide
  simp only [tryInlineTextbox, placeholderPart_of_plain p _ hne hcolon hspace,
    drop_past_colon, hlazy]
  simp only [Option.some.injEq, Prod.mk.injEq]
  constructor
  · simp only [replaceInlineTextbox, trim_eq_self p hspace,
      stripQuotes_eq_self p hquote, ht0, List.nil_append, List.append_nil,
      ← List.append_assoc, ← hmerge]
    simp [List.append_assoc]
  · omega

theorem subInlineTextbox_plain (p : Text) (hne : p ≠ [])
    (hp : ∀ c ∈ p, c.isAlphanum = true) :
    subInlineTextbox ("[[".data ++ p ++ ":]]".data)
      = "<input type=\"text\" class=\"inline-text\" placeholder=\"".data ++ p
          ++ "\" value=\"\" />".data := by
  have e1 : "[[".data = ['[', '['] := rfl
  have e2 : ":]]".data = ':' :: "]]".data := rfl
  have hform : "[[".data ++ p ++ ":]]".data
      = '[' :: '[' :: (p ++ ':' :: "]]".data) := by
    rw [e1, e2]
    simp
  rw [hform]
  show scanSub tryInlineTextbox _ = _
  rw [scanSub_cons_some _ _ _ _ _ (tryInlineTextbox_plain p hne hp)]
  have hlen : ('[' :: '[' :: (p ++ ':' :: "]]".data)).length
      = p.length + 5 := by simp
  have hmax : max (p.length + 5) 1 = p.length + 5 := by omega
  rw [hmax, ← hlen, List.drop_length, scanSub_nil, List.append_nil]

theorem tryTextarea_empty_placeholder (r : Text) :
    tryTextarea ('[' :: '[' :: '[' :: ':' :: r) = none := by
  have hpp : placeholderPart (':' :: r) = none := by
    simp [placeholderPart, List.takeWhile_cons]
  simp [tryTextarea, hpp]

theorem tryInlineTextbox_empty_placeholder (r : Text) :
    tryInlineTextbox ('[' :: '[' :: ':' :: r) = none := by
  have hpp : placeholderPart (':' :: r) = none := by
    simp [placeholderPart, List.takeWhile_cons]
  simp [tryInlineTextbox, hpp]

/-- C5 counterexample: a literally empty placeholder suppresses
substitution.  `[[[:x]]]` yields no textarea at all (the triple-bracket
pattern requires at least one non-colon character before the colon, and the
span is instead mangled by the double-bracket pass), and `[[:x]]` passes
through all substitution passes unchanged. -/
theorem claim_C5_counterexample :
    occursIn "<textarea".data (substitutedText "[[[:x]]]".data) = false
    ∧ substitutedText "[[:x]]".data = "[[:x]]".data := by
  constructor <;> decide

/-- C5 (amended): empty prefilled text does not suppress substitution — for
any non-empty alphanumeric placeholder, `[[[placeholder:]]]` becomes a
textarea with empty content and `[[placeholder:]]` an inline input with empty
value — but the placeholder capture `[^:]+?` needs at least one character, so
a span with nothing between the opening brackets and the colon is not matched
and is not replaced by its corresponding widget. -/
theorem claim_C5_amended_boxes (p : Text) (hne : p ≠ [])
    (hp : ∀ c ∈ p, c.isAlphanum = true) :
    subTextarea ("[[[".data ++ p ++ ":]]]".data)
      = "<textarea id=\"textbox\" placeholder=\"".data ++ p
          ++ "\"></textarea>".data
    ∧ subInlineTextbox ("[[".data ++ p ++ ":]]".data)
      = "<input type=\"text\" class=\"inline-text\" placeholder=\"".data ++ p
          ++ "\" value=\"\" />".data
    ∧ (∀ r : Text, tryTextarea ('[' :: '[' :: '[' :: ':' :: r) = none)
    ∧ (∀ r : Text, tryInlineTextbox ('[' :: '[' :: ':' :: r) = none) :=
  ⟨subTextarea_plain p hne hp, subInlineTextbox_plain p hne hp,
   tryTextarea_empty_placeholder, tryInlineTextbox_empty_placeholder⟩

theorem claim_C5_amended_boxes_witness :
    subTextarea ("[[[".data ++ "ph".data ++ ":]]]".data)
      = "<textarea id=\"textbox\" placeholder=\"".data ++ "ph".data
          ++ "\"></textarea>".data
    ∧ subInlineTextbox ("[[".data ++ "ph".data ++ ":]]".data)
      = "<input type=\"text\" class=\"inline-text\" placeholder=\"".data
          ++ "ph".data ++ "\" value=\"\" />".data :=
  ⟨(claim_C5_amended_boxes "ph".data (by decide) (by decide)).1,
   (claim_C5_amended_boxes "ph".data (by decide) (by decide)).2.1⟩

end PTP
